import Mathlib

/-!
Verification of the AGOL secure overlay / attributes proxy (`src/main.py`).

The development shallowly embeds the pure request-mediation logic of the
proxy: client-key authorization, field sanitization, where-lock injection,
the session-token cache, the response scrubbers for the query and identify
endpoints, the vector-tile style rewriter, and the byte-fetch translation
for tile/sprite/font endpoints.  JSON documents are modelled by an
inductive `Json` type; Python dictionaries become association lists
(`List (String × Json)`), with first-match lookup mirroring dict access
under the unique-key discipline of real JSON objects.
-/

namespace AgolProxy

/-- JSON values as consumed and produced by the proxy.  Objects are
association lists in document order, mirroring Python's insertion-ordered
dicts. -/
inductive Json : Type where
  | null : Json
  | bool (b : Bool) : Json
  | num (n : Int) : Json
  | str (s : String) : Json
  | arr (xs : List Json) : Json
  | obj (o : List (String × Json)) : Json

/-- A JSON object: an association list of fields in document order. -/
abbrev JObj := List (String × Json)

/-- First-match association-list lookup: Python `d.get(k)` for a dict with
unique keys. -/
def alook {α : Type} : List (String × α) → String → Option α
  | [], _ => none
  | (k', v) :: t, k => if k' = k then some v else alook t k

/-- The keys of an object, in document order. -/
def keysOf {α : Type} (o : List (String × α)) : List String := o.map Prod.fst

/-- Python `d.pop(k, None)`: remove the entry for `k`. -/
def eraseKey (o : JObj) (k : String) : JObj := o.filter fun p => p.1 ≠ k

/-- Python `d[k] = v`: replace in place when the key exists (dict update
keeps the original position), otherwise append. -/
def setKey (o : JObj) (k : String) (v : Json) : JObj :=
  if (alook o k).isSome then o.map (fun p => if p.1 = k then (k, v) else p)
  else o ++ [(k, v)]

/-- Python `d.setdefault(k, v)`. -/
def setdefaultKey (o : JObj) (k : String) (v : Json) : JObj :=
  if (alook o k).isSome then o else o ++ [(k, v)]

/-- Python `(a or b or "")` on optional strings: `a` when it is a non-empty
string, else `b` when non-empty, else `""`. -/
def pyOr (a b : Option String) : String :=
  match a with
  | some s => if s ≠ "" then s else b.getD ""
  | none => b.getD ""

/-- The whitespace characters removed by Python `str.strip()`. -/
def isPySpace (c : Char) : Bool :=
  c = ' ' ∨ c = '\t' ∨ c = '\n' ∨ c = '\r' ∨ c = '\x0b' ∨ c = '\x0c'

/-- Python `s.strip()`: drop leading and trailing whitespace. -/
def pyStrip (s : String) : String :=
  ⟨((s.data.dropWhile isPySpace).reverse.dropWhile isPySpace).reverse⟩

/-- Splitting a character list at every comma; the result is always
non-empty. -/
def splitCommaAux : List Char → List (List Char)
  | [] => [[]]
  | c :: cs =>
    if c = ',' then [] :: splitCommaAux cs
    else
      match splitCommaAux cs with
      | [] => [[c]]
      | l :: ls => (c :: l) :: ls

/-- Python `s.split(",")`. -/
def pySplitComma (s : String) : List String :=
  (splitCommaAux s.data).map (fun l => ⟨l⟩)

/-- Python `",".join(l)`. -/
def pyJoinComma : List String → String
  | [] => ""
  | [s] => s
  | s :: t => s ++ "," ++ pyJoinComma t

/-- A FastAPI `HTTPException(status, detail)`. -/
structure HTTPErr where
  status : Nat
  detail : String
deriving DecidableEq

/-- A client record from the clients registry (`clients.json`).  The
`disabled` field is kept as raw JSON because the registry is hand-editable
and the code checks it with `is True`.  Absent fields are `Json.null`. -/
structure ClientRecord where
  name : String
  services : List String
  disabled : Json
  where_lock : List (String × String)

/-- The clients registry: client key → record. -/
abbrev ClientsReg := List (String × ClientRecord)

/-- Python `rec.get("disabled") is True`: identity comparison with the
boolean `True`; every other value (including truthy strings and numbers)
is treated as not disabled. -/
def disabledIsTrue : Json → Bool
  | .bool true => true
  | _ => false

/-- `get_client_record` (src/main.py:75-82).  `if not rec` is modelled by
the `none` branch of the lookup; a well-formed `ClientRecord` is a
non-empty JSON object and hence never falsy. -/
def get_client_record (clients : ClientsReg) (client_key : String) :
    Except HTTPErr ClientRecord :=
  match alook clients client_key with
  | none => .error ⟨401, "Unauthorized: invalid key"⟩
  | some rec =>
    if disabledIsTrue rec.disabled then .error ⟨401, "Unauthorized: key disabled"⟩
    else .ok rec

/-- `enforce_access` (src/main.py:85-101).  Pure, read-only: the registries
are inputs and are never modified. -/
def enforce_access (clients : ClientsReg) (aliasName : String)
    (x_api_key key : Option String) : Except HTTPErr ClientRecord :=
  let client_key := pyStrip (pyOr x_api_key key)
  if client_key = "" then .error ⟨401, "Unauthorized: missing key"⟩
  else
    match get_client_record clients client_key with
    | .error e => .error e
    | .ok rec =>
      if !rec.services.isEmpty && !rec.services.contains aliasName then
        .error ⟨403, "Forbidden: service not allowed for this key"⟩
      else .ok rec

/-- `sanitize_outfields` (src/main.py:170-176).  The Python comprehension
`[f.strip() for f in requested.split(",") if f.strip()]` keeps exactly the
stripped fragments that are non-empty. -/
def sanitize_outfields (requested : Option String) (allowed : List String) :
    String :=
  match requested with
  | none => pyJoinComma allowed
  | some r =>
    if r = "" ∨ pyStrip r = "*" then pyJoinComma allowed
    else
      let fields := ((pySplitComma r).map pyStrip).filter (fun f => f ≠ "")
      let safe := fields.filter (fun f => allowed.contains f)
      if safe.isEmpty then pyJoinComma allowed
      else pyJoinComma safe

/-- `apply_where_lock` (src/main.py:179-188).  `if not lock` rejects both a
missing entry and a falsy (empty-string) one. -/
def apply_where_lock (client_rec : ClientRecord) (aliasName w : String) : String :=
  match alook client_rec.where_lock aliasName with
  | none => w
  | some lock => if lock = "" then w else "(" ++ w ++ ") AND (" ++ lock ++ ")"

/-- The where-clause the identify endpoint sends upstream
(src/main.py:750): the lock applied to the implicit `1=1`. -/
def identify_where_final (client_rec : ClientRecord) (aliasName : String) : String :=
  apply_where_lock client_rec aliasName "1=1"

/-- The process-wide token cache (`TokenCache`, src/main.py:107-113).
Times are epoch seconds, modelled as rationals. -/
structure TokenCache where
  token : Option String
  expires_at : Rat

/-- `TokenCache.valid` (src/main.py:112-113): `bool(self.token)` requires a
present, non-empty token; the margin check is `now < expires_at - 60`. -/
def TokenCache.valid (c : TokenCache) (now : Rat) : Bool :=
  (match c.token with
   | some s => s ≠ ""
   | none => false) && decide (now < c.expires_at - 60)

/-- The auth configuration consumed by `get_agol_token`: `auth.type` from
the service config, and the username/password resolved from the
environment. -/
structure AuthCfg where
  authType : String
  username : String
  password : String

/-- The fields of the upstream `generateToken` JSON reply that
`get_agol_token` reads: presence of an `error` member (with a rendering of
its payload for the message), and the `token` and `expires` members
(epoch milliseconds). -/
structure AgolResp where
  hasError : Bool
  errText : String
  token : Option String
  expires : Option Int

/-- Outcome of one `get_agol_token` call: the returned token or raised
`HTTPException`, the cache state after the call, and whether an upstream
network request was made. -/
structure TokenOutcome where
  result : Except HTTPErr String
  cache : TokenCache
  networkCall : Bool

/-- `get_agol_token` (src/main.py:119-164), as a pure function of the cache
state, the current time, the auth configuration, and the upstream reply
(consumed only when the exchange is performed).  `if not token or not
expires_ms` treats an absent, empty-string token and an absent or zero
expiry as missing. -/
def get_agol_token (c : TokenCache) (now : Rat) (cfg : AuthCfg)
    (resp : AgolResp) : TokenOutcome :=
  if c.valid now then ⟨.ok (c.token.getD ""), c, false⟩
  else if cfg.authType ≠ "generateToken" then
    ⟨.error ⟨500, "Unsupported auth.type (expected generateToken)"⟩, c, false⟩
  else if cfg.username = "" ∨ cfg.password = "" then
    ⟨.error ⟨500, "Missing AGOL credentials env vars"⟩, c, false⟩
  else if resp.hasError then
    ⟨.error ⟨500, "AGOL token error: " ++ resp.errText⟩, c, true⟩
  else
    match resp.token, resp.expires with
    | some t, some e =>
      if t = "" ∨ e = 0 then
        ⟨.error ⟨500, "AGOL token response missing token/expires"⟩, c, true⟩
      else ⟨.ok t, ⟨some t, (e : Rat) / 1000⟩, true⟩
    | _, _ => ⟨.error ⟨500, "AGOL token response missing token/expires"⟩, c, true⟩

/-- Per-feature geometry strip in the query endpoint (src/main.py:722-723):
`f.pop("geometry", None)` on each feature object.  A non-object feature
would raise in Python; it is carried through unchanged here. -/
def dropGeometry : Json → Json
  | .obj o => .obj (eraseKey o "geometry")
  | j => j

/-- The feature list of an upstream query payload:
`j.get("features", [])` (src/main.py:721, 780). -/
def featuresOf (j : JObj) : List Json :=
  match alook j "features" with
  | some (.arr xs) => xs
  | _ => []

/-- The geometry scrub loop of `query_attributes_only`
(src/main.py:721-724). -/
def query_scrub_features (feats : List Json) : List Json :=
  feats.map dropGeometry

/-- The response assembly of `query_attributes_only`
(src/main.py:721-725): `j["features"] = feats` after the scrub. -/
def query_response (j : JObj) : JObj :=
  setKey j "features" (.arr (query_scrub_features (featuresOf j)))

/-- `(f.get("attributes") or {})` (src/main.py:783): the attribute object
of an upstream feature, empty when absent or falsy. -/
def attrsOf (f : Json) : JObj :=
  match f with
  | .obj o =>
    match alook o "attributes" with
    | some (.obj a) => a
    | _ => []
  | _ => []

/-- One cleaned identify result (src/main.py:783-785):
`{"attributes": {k: attrs.get(k) for k in allowed if k in attrs}}`.
The comprehension order is the whitelist order; with a duplicate-free
whitelist the association list below is exactly the Python dict. -/
def identify_clean_one (allowed : List String) (f : Json) : JObj :=
  let attrs := attrsOf f
  [("attributes",
    Json.obj ((allowed.filter fun k => (alook attrs k).isSome).map
      fun k => (k, (alook attrs k).getD Json.null)))]

/-- The cleaned result list of `identify_attributes_only`
(src/main.py:780-786). -/
def identify_results (allowed : List String) (feats : List Json) : List JObj :=
  feats.map (identify_clean_one allowed)

/-- The identify response (src/main.py:787):
`{"count": len(cleaned), "results": cleaned}`. -/
def identify_response (allowed : List String) (feats : List Json) : JObj :=
  [("count", Json.num ((identify_results allowed feats).length : Int)),
   ("results", Json.arr ((identify_results allowed feats).map Json.obj))]

/-- The gateway tile URL template embedded by `vt_style`
(src/main.py:825-827); the Python f-string renders `{{z}}` as the literal
`{z}`, in z/y/x order. -/
def tileTemplate (gw aliasName keyq : String) : String :=
  gw ++ "/tiles/" ++ aliasName ++ "/tile/{z}/{y}/{x}.pbf?key=" ++ keyq

/-- The gateway sprite URL written by `vt_style` (src/main.py:833): the
client key is a path segment. -/
def spriteURL (gw aliasName keyq : String) : String :=
  gw ++ "/tiles/" ++ aliasName ++ "/sprite/" ++ keyq

/-- The gateway glyphs URL template written by `vt_style`
(src/main.py:836). -/
def glyphsURL (gw aliasName keyq : String) : String :=
  gw ++ "/tiles/" ++ aliasName ++ "/fonts/{fontstack}/{range}.pbf?key=" ++ keyq

/-- `src.get("type") == "vector"` (src/main.py:824). -/
def isVector (src : JObj) : Bool :=
  match alook src "type" with
  | some (.str t) => t = "vector"
  | _ => false

/-- The per-source rewrite loop body of `vt_style` (src/main.py:820-830):
pop any raw `url`, then for vector sources replace `tiles` with the single
gateway template and default `scheme`/`minzoom`/`maxzoom`. -/
def rewrite_source (tmpl : String) (src : JObj) : JObj :=
  let s := eraseKey src "url"
  if isVector s then
    let s := setKey s "tiles" (.arr [.str tmpl])
    let s := setdefaultKey s "scheme" (.str "xyz")
    let s := setdefaultKey s "minzoom" (.num 0)
    setdefaultKey s "maxzoom" (.num 23)
  else s

/-- The per-source rewrite on raw JSON values; a non-object source would
raise in Python and is carried through unchanged. -/
def rewriteSourceJ (tmpl : String) : Json → Json
  | .obj src => .obj (rewrite_source tmpl src)
  | j => j

/-- The sources object of a style document: `style.get("sources", {})`
(src/main.py:820). -/
def sourcesOf (style : JObj) : JObj :=
  match alook style "sources" with
  | some (.obj srcs) => srcs
  | _ => []

/-- The source-rewriting loop of `vt_style` (src/main.py:820-830): every
value of `style.get("sources", {})` rewritten in place (an absent or
non-object `sources` member leaves the document unchanged, as the loop
then has nothing to iterate). -/
def rewrite_sources_step (tmpl : String) (style : JObj) : JObj :=
  match alook style "sources" with
  | some (.obj srcs) =>
    setKey style "sources" (.obj (srcs.map fun p => (p.1, rewriteSourceJ tmpl p.2)))
  | _ => style

/-- The sprite replacement of `vt_style` (src/main.py:832-833):
`if "sprite" in style`. -/
def rewrite_sprite_step (u : String) (s : JObj) : JObj :=
  if (alook s "sprite").isSome then setKey s "sprite" (.str u) else s

/-- The glyphs replacement of `vt_style` (src/main.py:835-836):
`if "glyphs" in style`. -/
def rewrite_glyphs_step (u : String) (s : JObj) : JObj :=
  if (alook s "glyphs").isSome then setKey s "glyphs" (.str u) else s

/-- The style rewrite of `vt_style` (src/main.py:818-838) after the
upstream fetch: rewrite every source in place, then replace `sprite` and
`glyphs` when present.  `gw` is `PUBLIC_PROXY_BASE`, `keyq` the key chosen
by `(key or x_api_key or "").strip()`. -/
def vt_style_rewrite (gw aliasName keyq : String) (style : JObj) : JObj :=
  rewrite_glyphs_step (glyphsURL gw aliasName keyq)
    (rewrite_sprite_step (spriteURL gw aliasName keyq)
      (rewrite_sources_step (tileTemplate gw aliasName keyq) style))

/-- The full `vt_style` endpoint key selection (src/main.py:818): note the
query parameter takes precedence over the header here, the reverse of
`enforce_access`. -/
def vt_style_endpoint (x_api_key key : Option String) (gw aliasName : String)
    (style : JObj) : JObj :=
  vt_style_rewrite gw aliasName (pyStrip (pyOr key x_api_key)) style

/-- `isPrefB t l`: `t` is a prefix of `l` (character lists). -/
def isPrefB : List Char → List Char → Bool
  | [], _ => true
  | _ :: _, [] => false
  | a :: as, b :: bs => a = b && isPrefB as bs

/-- `infAux t l`: `t` occurs as a contiguous segment of `l`. -/
def infAux (t : List Char) : List Char → Bool
  | [] => isPrefB t []
  | c :: ls => isPrefB t (c :: ls) || infAux t ls

/-- `substrB t s`: the string `t` occurs as a substring of `s`. -/
def substrB (t s : String) : Bool := infAux t.data s.data

mutual
/-- `strOccursJ t j`: the string `t` occurs as a substring of some string
value of the JSON document `j` (keys are fixed schema identifiers and are
not searched). -/
def strOccursJ (t : String) : Json → Bool
  | .null => false
  | .bool _ => false
  | .num _ => false
  | .str s => substrB t s
  | .arr xs => strOccursA t xs
  | .obj o => strOccursO t o
termination_by j => sizeOf j
/-- Occurrence of `t` among the string values of a JSON array. -/
def strOccursA (t : String) : List Json → Bool
  | [] => false
  | j :: js => strOccursJ t j || strOccursA t js
termination_by xs => sizeOf xs
/-- Occurrence of `t` among the string values of a JSON object. -/
def strOccursO (t : String) : List (String × Json) → Bool
  | [] => false
  | (_, v) :: ps => strOccursJ t v || strOccursO t ps
termination_by ps => sizeOf ps
decreasing_by all_goals first | (simp_wf; omega) | simp_wf
end

/-- The per-source residue of the rewrite: the fields `vt_style` removes or
overwrites (`url` always, `tiles` for vector sources) deleted.  Everything
the rewrite leaves in a source is a value of its residue. -/
def strip_source (src : JObj) : JObj :=
  if isVector (eraseKey src "url") then eraseKey (eraseKey src "url") "tiles"
  else eraseKey src "url"

/-- `strip_source` on raw JSON values. -/
def stripSourceJ : Json → Json
  | .obj src => .obj (strip_source src)
  | j => j

/-- Source residues applied across a style document. -/
def strip_sources_step (style : JObj) : JObj :=
  match alook style "sources" with
  | some (.obj srcs) =>
    setKey style "sources" (.obj (srcs.map fun p => (p.1, stripSourceJ p.2)))
  | _ => style

/-- The residue of the whole style document: `sprite` and `glyphs` deleted,
every source replaced by its residue.  A string value of the rewritten
document that is not part of a gateway URL already occurs in the
residue. -/
def strip_style (style : JObj) : JObj :=
  strip_sources_step (eraseKey (eraseKey style "sprite") "glyphs")

/-- An upstream HTTP response for the byte-fetch endpoints: status code and
raw body bytes. -/
structure UpResp where
  status : Nat
  body : List Nat
deriving DecidableEq

/-- A gateway response for the byte-fetch endpoints. -/
structure GatewayResp where
  status : Nat
  body : List Nat
  media : Option String
deriving DecidableEq

/-- A failure raised while translating an upstream byte fetch:
`httpx.Response.raise_for_status` on a non-2xx status. -/
inductive FetchErr : Type where
  | httpStatus (code : Nat) : FetchErr
deriving DecidableEq

/-- `httpx.Response.is_success`: a 2xx status (`raise_for_status` raises
for everything else). -/
def isSuccessStatus (n : Nat) : Bool := 200 ≤ n && n < 300

/-- Python `base.rstrip("/")`. -/
def rstripSlash (s : String) : String :=
  ⟨(s.data.reverse.dropWhile (fun c => c = '/')).reverse⟩

/-- The upstream tile path of `vt_tile` (src/main.py:862): z/y/x order. -/
def vt_tile_url (base : String) (z y x : Int) : String :=
  rstripSlash base ++ "/tile/" ++ toString z ++ "/" ++ toString y ++ "/" ++
    toString x ++ ".pbf"

/-- The upstream sprite JSON path of `vt_sprite_json` (src/main.py:885). -/
def sprite_json_url (base : String) : String :=
  rstripSlash base ++ "/resources/sprites/sprite.json"

/-- The upstream sprite PNG path of `vt_sprite_png` (src/main.py:904). -/
def sprite_png_url (base : String) : String :=
  rstripSlash base ++ "/resources/sprites/sprite.png"

/-- The upstream font path of `vt_fonts` (src/main.py:972). -/
def fonts_url (base fontstack rangeName : String) : String :=
  rstripSlash base ++ "/resources/fonts/" ++ fontstack ++ "/" ++ rangeName ++ ".pbf"

/-- The response translation of `vt_tile` (src/main.py:864-869): upstream
404 passed through, otherwise `raise_for_status` then the bytes with
protobuf media type. -/
def vt_tile_fetch (r : UpResp) : Except FetchErr GatewayResp :=
  if r.status = 404 then .ok ⟨404, [], none⟩
  else if isSuccessStatus r.status then
    .ok ⟨200, r.body, some "application/x-protobuf"⟩
  else .error (.httpStatus r.status)

/-- The response translation of `vt_fonts` (src/main.py:974-979): same
shape as the tile endpoint. -/
def vt_fonts_fetch (r : UpResp) : Except FetchErr GatewayResp :=
  if r.status = 404 then .ok ⟨404, [], none⟩
  else if isSuccessStatus r.status then
    .ok ⟨200, r.body, some "application/x-protobuf"⟩
  else .error (.httpStatus r.status)

/-- The response translation of `vt_sprite_json` (src/main.py:886-889):
`raise_for_status` with no 404 check, then the JSON body. -/
def vt_sprite_json_fetch (r : UpResp) : Except FetchErr GatewayResp :=
  if isSuccessStatus r.status then .ok ⟨200, r.body, some "application/json"⟩
  else .error (.httpStatus r.status)

/-- The response translation of `vt_sprite_png` (src/main.py:905-908):
`raise_for_status` with no 404 check, then the bytes with PNG media
type. -/
def vt_sprite_png_fetch (r : UpResp) : Except FetchErr GatewayResp :=
  if isSuccessStatus r.status then .ok ⟨200, r.body, some "image/png"⟩
  else .error (.httpStatus r.status)

/-- The response translation of `vt_sprite2x_png` (src/main.py:944-950):
unlike the non-@2x variant this one does pass an upstream 404 through. -/
def vt_sprite2x_png_fetch (r : UpResp) : Except FetchErr GatewayResp :=
  if r.status = 404 then .ok ⟨404, [], none⟩
  else if isSuccessStatus r.status then .ok ⟨200, r.body, some "image/png"⟩
  else .error (.httpStatus r.status)

/-! ### Association-list lemmas -/

theorem alook_nil {α : Type} (k : String) :
    alook ([] : List (String × α)) k = none := rfl

theorem alook_cons {α : Type} (k' : String) (v : α) (t : List (String × α))
    (k : String) :
    alook ((k', v) :: t) k = if k' = k then some v else alook t k := rfl

theorem keysOf_cons {α : Type} (k' : String) (v : α) (t : List (String × α)) :
    keysOf ((k', v) :: t) = k' :: keysOf t := rfl

theorem eraseKey_cons (k' : String) (v : Json) (t : JObj) (k : String) :
    eraseKey ((k', v) :: t) k =
      if k' = k then eraseKey t k else (k', v) :: eraseKey t k := by
  by_cases h : k' = k <;> simp [eraseKey, List.filter_cons, h]

theorem alook_eq_none_iff {α : Type} (o : List (String × α)) (k : String) :
    alook o k = none ↔ k ∉ keysOf o := by
  induction o with
  | nil => simp [alook_nil, keysOf]
  | cons p t ih =>
    obtain ⟨k', v⟩ := p
    rw [alook_cons, keysOf_cons]
    by_cases h : k' = k
    · subst h; simp
    · simp [h, ih, Ne.symm h]

theorem alook_isSome_iff {α : Type} (o : List (String × α)) (k : String) :
    (alook o k).isSome = true ↔ k ∈ keysOf o := by
  rw [Option.isSome_iff_ne_none, ne_eq, alook_eq_none_iff, not_not]

theorem eraseKey_of_not_mem (o : JObj) (k : String) (h : alook o k = none) :
    eraseKey o k = o := by
  rw [alook_eq_none_iff] at h
  induction o with
  | nil => rfl
  | cons p t ih =>
    obtain ⟨k', v⟩ := p
    rw [keysOf_cons, List.mem_cons, not_or] at h
    rw [eraseKey_cons, if_neg (fun hh => h.1 hh.symm), ih h.2]

theorem alook_eraseKey_ne (o : JObj) (k k' : String) (h : k' ≠ k) :
    alook (eraseKey o k) k' = alook o k' := by
  induction o with
  | nil => rfl
  | cons p t ih =>
    obtain ⟨k₀, v⟩ := p
    rw [eraseKey_cons]
    by_cases hk : k₀ = k
    · rw [if_pos hk, ih, alook_cons, if_neg (fun hh : k₀ = k' => h (hh ▸ hk))]
    · rw [if_neg hk, alook_cons, alook_cons, ih]

theorem alook_append_of_none {α : Type} (a b : List (String × α)) (k : String)
    (h : alook a k = none) : alook (a ++ b) k = alook b k := by
  induction a with
  | nil => rfl
  | cons p t ih =>
    obtain ⟨k₀, v⟩ := p
    rw [alook_cons] at h
    by_cases hk : k₀ = k
    · simp [hk] at h
    · rw [if_neg hk] at h
      rw [List.cons_append, alook_cons, if_neg hk, ih h]

theorem alook_append_of_some {α : Type} (a b : List (String × α)) (k : String)
    (v : α) (h : alook a k = some v) : alook (a ++ b) k = some v := by
  induction a with
  | nil => simp [alook_nil] at h
  | cons p t ih =>
    obtain ⟨k₀, v₀⟩ := p
    rw [alook_cons] at h
    by_cases hk : k₀ = k
    · rw [if_pos hk] at h
      rw [List.cons_append, alook_cons, if_pos hk, h]
    · rw [if_neg hk] at h
      rw [List.cons_append, alook_cons, if_neg hk, ih h]

theorem alook_mapRep_self (o : JObj) (k : String) (v : Json)
    (h : k ∈ keysOf o) :
    alook (o.map fun p => if p.1 = k then (k, v) else p) k = some v := by
  induction o with
  | nil => simp [keysOf] at h
  | cons p t ih =>
    obtain ⟨k₀, v₀⟩ := p
    rw [List.map_cons]
    by_cases hk : k₀ = k
    · subst hk
      simp [alook_cons]
    · rw [keysOf_cons, List.mem_cons] at h
      rcases h with h | h
      · exact absurd h.symm hk
      · simp only [if_neg hk]
        rw [alook_cons, if_neg hk]
        exact ih h

theorem alook_mapRep_ne (o : JObj) (k k' : String) (v : Json) (h : k' ≠ k) :
    alook (o.map fun p => if p.1 = k then (k, v) else p) k' = alook o k' := by
  induction o with
  | nil => rfl
  | cons p t ih =>
    obtain ⟨k₀, v₀⟩ := p
    rw [List.map_cons]
    by_cases hk : k₀ = k
    · subst hk
      simp [alook_cons, Ne.symm h, ih]
    · simp only [if_neg hk]
      by_cases hk' : k₀ = k' <;>
        rw [alook_cons, alook_cons] <;> simp [hk', ih]

theorem alook_setKey_self (o : JObj) (k : String) (v : Json) :
    alook (setKey o k v) k = some v := by
  unfold setKey
  by_cases hs : (alook o k).isSome
  · rw [if_pos hs]
    exact alook_mapRep_self o k v ((alook_isSome_iff o k).mp hs)
  · rw [if_neg hs]
    have hn : alook o k = none := Option.not_isSome_iff_eq_none.mp (by simpa using hs)
    rw [alook_append_of_none _ _ _ hn, alook_cons, if_pos rfl]

theorem alook_setKey_ne (o : JObj) (k k' : String) (v : Json) (h : k' ≠ k) :
    alook (setKey o k v) k' = alook o k' := by
  unfold setKey
  by_cases hs : (alook o k).isSome
  · rw [if_pos hs]
    exact alook_mapRep_ne o k k' v h
  · rw [if_neg hs]
    cases hx : alook o k' with
    | some w => rw [alook_append_of_some _ _ _ _ hx]
    | none =>
      rw [alook_append_of_none _ _ _ hx, alook_cons,
        if_neg (fun hh : k = k' => h hh.symm), alook_nil]

theorem alook_setdefaultKey_self (o : JObj) (k : String) (v : Json) :
    alook (setdefaultKey o k v) k = some ((alook o k).getD v) := by
  unfold setdefaultKey
  by_cases hs : (alook o k).isSome
  · obtain ⟨w, hw⟩ := Option.isSome_iff_exists.mp hs
    rw [if_pos hs, hw]
    rfl
  · have hn : alook o k = none := Option.not_isSome_iff_eq_none.mp (by simpa using hs)
    rw [if_neg hs, alook_append_of_none _ _ _ hn, alook_cons, if_pos rfl, hn]
    rfl

theorem alook_setdefaultKey_ne (o : JObj) (k k' : String) (v : Json)
    (h : k' ≠ k) : alook (setdefaultKey o k v) k' = alook o k' := by
  unfold setdefaultKey
  by_cases hs : (alook o k).isSome
  · rw [if_pos hs]
  · rw [if_neg hs]
    cases hx : alook o k' with
    | some w => rw [alook_append_of_some _ _ _ _ hx]
    | none =>
      rw [alook_append_of_none _ _ _ hx, alook_cons,
        if_neg (fun hh : k = k' => h hh.symm), alook_nil]

theorem keysOf_eraseKey_not_mem (o : JObj) (k : String) :
    k ∉ keysOf (eraseKey o k) := by
  intro h
  simp only [keysOf, List.mem_map] at h
  obtain ⟨p, hp, hpk⟩ := h
  have hpred := List.of_mem_filter hp
  exact (of_decide_eq_true hpred) hpk

theorem keysOf_setKey_not_mem (o : JObj) (k k' : String) (v : Json)
    (hne : k' ≠ k) (h : k' ∉ keysOf o) : k' ∉ keysOf (setKey o k v) := by
  unfold setKey
  by_cases hs : (alook o k).isSome
  · rw [if_pos hs]
    intro hmem
    simp only [keysOf, List.map_map, List.mem_map, Function.comp] at hmem
    obtain ⟨q, hq, hqe⟩ := hmem
    by_cases hqk : q.1 = k
    · rw [if_pos hqk] at hqe
      exact hne hqe.symm
    · rw [if_neg hqk] at hqe
      exact h (by simp only [keysOf, List.mem_map]; exact ⟨q, hq, hqe⟩)
  · rw [if_neg hs]
    intro hmem
    simp only [keysOf, List.map_append, List.mem_append, List.map_cons,
      List.map_nil, List.mem_singleton] at hmem
    rcases hmem with hmem | hmem
    · exact h hmem
    · exact hne hmem

theorem keysOf_setdefaultKey_not_mem (o : JObj) (k k' : String) (v : Json)
    (hne : k' ≠ k) (h : k' ∉ keysOf o) : k' ∉ keysOf (setdefaultKey o k v) := by
  unfold setdefaultKey
  by_cases hs : (alook o k).isSome
  · rw [if_pos hs]
    exact h
  · rw [if_neg hs]
    intro hmem
    simp only [keysOf, List.map_append, List.mem_append, List.map_cons,
      List.map_nil, List.mem_singleton] at hmem
    rcases hmem with hmem | hmem
    · exact h hmem
    · exact hne hmem

theorem eraseKey_comm (o : JObj) (k k' : String) :
    eraseKey (eraseKey o k) k' = eraseKey (eraseKey o k') k := by
  induction o with
  | nil => rfl
  | cons p t ih =>
    obtain ⟨k₀, v⟩ := p
    by_cases h : k₀ = k <;> by_cases h' : k₀ = k'
    · subst h; subst h'
      simp [eraseKey_cons, ih]
    · subst h
      simp [eraseKey_cons, h', ih]
    · subst h'
      simp [eraseKey_cons, h, ih]
    · simp [eraseKey_cons, h, h', ih]

theorem eraseKey_mapRep_comm (t : JObj) (k k' : String) (v : Json)
    (h : k ≠ k') :
    eraseKey (t.map fun p => if p.1 = k then (k, v) else p) k' =
      (eraseKey t k').map fun p => if p.1 = k then (k, v) else p := by
  induction t with
  | nil => rfl
  | cons p ps ih =>
    obtain ⟨k₀, v₀⟩ := p
    rw [List.map_cons]
    by_cases hk : k₀ = k
    · subst hk
      simp [eraseKey_cons, h, ih]
    · by_cases hk' : k₀ = k'
      · subst hk'
        simp [eraseKey_cons, hk, Ne.symm h, ih]
      · simp [eraseKey_cons, hk, hk', ih]

theorem eraseKey_setKey_comm (o : JObj) (k k' : String) (v : Json)
    (h : k ≠ k') :
    eraseKey (setKey o k v) k' = setKey (eraseKey o k') k v := by
  unfold setKey
  rw [alook_eraseKey_ne o k' k h]
  by_cases hs : (alook o k).isSome
  · rw [if_pos hs, if_pos hs]
    exact eraseKey_mapRep_comm o k k' v h
  · rw [if_neg hs, if_neg hs]
    simp [eraseKey, List.filter_append, h]

/-! ### Occurrence lemmas -/

theorem strOccursJ_null (t : String) : strOccursJ t .null = false := by
  simp [strOccursJ]

theorem strOccursJ_bool (t : String) (b : Bool) :
    strOccursJ t (.bool b) = false := by
  simp [strOccursJ]

theorem strOccursJ_num (t : String) (n : Int) :
    strOccursJ t (.num n) = false := by
  simp [strOccursJ]

theorem strOccursJ_str (t s : String) : strOccursJ t (.str s) = substrB t s := by
  simp [strOccursJ]

theorem strOccursJ_arr (t : String) (xs : List Json) :
    strOccursJ t (.arr xs) = strOccursA t xs := by
  simp [strOccursJ]

theorem strOccursJ_obj (t : String) (o : JObj) :
    strOccursJ t (.obj o) = strOccursO t o := by
  simp [strOccursJ]

theorem strOccursA_nil (t : String) : strOccursA t [] = false := by
  simp [strOccursA]

theorem strOccursA_cons (t : String) (j : Json) (js : List Json) :
    strOccursA t (j :: js) = (strOccursJ t j || strOccursA t js) := by
  simp [strOccursA]

theorem strOccursO_nil (t : String) : strOccursO t [] = false := by
  simp [strOccursO]

theorem strOccursO_cons (t : String) (p : String × Json) (ps : JObj) :
    strOccursO t (p :: ps) = (strOccursJ t p.2 || strOccursO t ps) := by
  obtain ⟨k, v⟩ := p
  simp [strOccursO]

theorem strOccursO_append (t : String) (a b : JObj) :
    strOccursO t (a ++ b) = (strOccursO t a || strOccursO t b) := by
  induction a with
  | nil => simp [strOccursO_nil]
  | cons p ps ih =>
    rw [List.cons_append, strOccursO_cons, strOccursO_cons, ih, Bool.or_assoc]

theorem strOccursO_eraseKey_le (t : String) (o : JObj) (k : String)
    (h : strOccursO t (eraseKey o k) = true) : strOccursO t o = true := by
  induction o with
  | nil => simpa [eraseKey] using h
  | cons p ps ih =>
    obtain ⟨k₀, v⟩ := p
    rw [eraseKey_cons] at h
    rw [strOccursO_cons]
    by_cases hk : k₀ = k
    · rw [if_pos hk] at h
      rw [ih h, Bool.or_true]
    · rw [if_neg hk, strOccursO_cons] at h
      rcases Bool.or_eq_true_iff.mp h with h | h
      · rw [h, Bool.true_or]
      · rw [ih h, Bool.or_true]

theorem strOccursO_setKey_le (t : String) (o : JObj) (k : String) (v : Json)
    (h : strOccursO t (setKey o k v) = true) :
    strOccursJ t v = true ∨ strOccursO t (eraseKey o k) = true := by
  unfold setKey at h
  by_cases hs : (alook o k).isSome
  · rw [if_pos hs] at h
    clear hs
    induction o with
    | nil => simp [strOccursO_nil] at h
    | cons p ps ih =>
      obtain ⟨k₀, v₀⟩ := p
      rw [List.map_cons, strOccursO_cons] at h
      rw [eraseKey_cons]
      by_cases hk : k₀ = k
      · rw [if_pos hk]
        rcases Bool.or_eq_true_iff.mp h with h | h
        · left
          simpa [hk] using h
        · exact ih h
      · rw [if_neg hk]
        rcases Bool.or_eq_true_iff.mp h with h | h
        · right
          rw [strOccursO_cons]
          simp only [if_neg hk] at h
          rw [h, Bool.true_or]
        · rcases ih h with h | h
          · exact Or.inl h
          · right
            rw [strOccursO_cons, h, Bool.or_true]
  · rw [if_neg hs] at h
    rw [strOccursO_append, strOccursO_cons, strOccursO_nil, Bool.or_false]
      at h
    have hn : alook o k = none :=
      Option.not_isSome_iff_eq_none.mp (by simpa using hs)
    rw [eraseKey_of_not_mem o k hn]
    rcases Bool.or_eq_true_iff.mp h with h | h
    · exact Or.inr h
    · exact Or.inl h

theorem strOccursO_setKey_ge_erase (t : String) (o : JObj) (k : String)
    (v : Json) (h : strOccursO t (eraseKey o k) = true) :
    strOccursO t (setKey o k v) = true := by
  unfold setKey
  by_cases hs : (alook o k).isSome
  · rw [if_pos hs]
    clear hs
    induction o with
    | nil => simpa [eraseKey] using h
    | cons p ps ih =>
      obtain ⟨k₀, v₀⟩ := p
      rw [eraseKey_cons] at h
      rw [List.map_cons, strOccursO_cons]
      by_cases hk : k₀ = k
      · rw [if_pos hk] at h
        rw [ih h, Bool.or_true]
      · rw [if_neg hk, strOccursO_cons] at h
        rcases Bool.or_eq_true_iff.mp h with h | h
        · simp only [if_neg hk]
          rw [h, Bool.true_or]
        · rw [ih h, Bool.or_true]
  · rw [if_neg hs]
    have hn : alook o k = none :=
      Option.not_isSome_iff_eq_none.mp (by simpa using hs)
    rw [eraseKey_of_not_mem o k hn] at h
    rw [strOccursO_append, h, Bool.true_or]

theorem strOccursO_setKey_ge_val (t : String) (o : JObj) (k : String)
    (v : Json) (h : strOccursJ t v = true) :
    strOccursO t (setKey o k v) = true := by
  unfold setKey
  by_cases hs : (alook o k).isSome
  · rw [if_pos hs]
    have hmem := (alook_isSome_iff o k).mp hs
    clear hs
    induction o with
    | nil => simp [keysOf] at hmem
    | cons p ps ih =>
      obtain ⟨k₀, v₀⟩ := p
      rw [List.map_cons, strOccursO_cons]
      by_cases hk : k₀ = k
      · simp only [if_pos hk]
        rw [h, Bool.true_or]
      · rw [keysOf_cons, List.mem_cons] at hmem
        rcases hmem with hmem | hmem
        · exact absurd hmem.symm hk
        · rw [ih hmem, Bool.or_true]
  · rw [if_neg hs]
    rw [strOccursO_append, strOccursO_cons, strOccursO_nil, Bool.or_false, h,
      Bool.or_true]

theorem strOccursO_setdefaultKey_le (t : String) (o : JObj) (k : String)
    (v : Json) (h : strOccursO t (setdefaultKey o k v) = true) :
    strOccursO t o = true ∨ strOccursJ t v = true := by
  unfold setdefaultKey at h
  by_cases hs : (alook o k).isSome
  · rw [if_pos hs] at h
    exact Or.inl h
  · rw [if_neg hs, strOccursO_append, strOccursO_cons, strOccursO_nil,
      Bool.or_false] at h
    exact Bool.or_eq_true_iff.mp h


/-! ### Style-rewrite propagation lemmas -/

theorem strOccursJ_rewriteSource_le (t tmpl : String) (j : Json)
    (h : strOccursJ t (rewriteSourceJ tmpl j) = true) :
    strOccursJ t (stripSourceJ j) = true ∨ substrB t tmpl = true ∨
      substrB t "xyz" = true := by
  cases j with
  | obj src =>
    simp only [rewriteSourceJ] at h
    simp only [stripSourceJ]
    unfold rewrite_source at h
    unfold strip_source
    by_cases hv : isVector (eraseKey src "url")
    · rw [if_pos hv] at h
      rw [if_pos hv]
      rw [strOccursJ_obj] at h
      rcases strOccursO_setdefaultKey_le _ _ _ _ h with h | h
      · rcases strOccursO_setdefaultKey_le _ _ _ _ h with h | h
        · rcases strOccursO_setdefaultKey_le _ _ _ _ h with h | h
          · rcases strOccursO_setKey_le _ _ _ _ h with h | h
            · right; left
              rw [strOccursJ_arr, strOccursA_cons, strOccursA_nil,
                Bool.or_false, strOccursJ_str] at h
              exact h
            · left
              rw [strOccursJ_obj]
              exact h
          · right; right
            rw [strOccursJ_str] at h
            exact h
        · rw [strOccursJ_num] at h
          exact absurd h (by simp)
      · rw [strOccursJ_num] at h
        exact absurd h (by simp)
    · rw [if_neg hv] at h
      rw [if_neg hv]
      left
      exact h
  | null => left; exact h
  | bool b => left; exact h
  | num n => left; exact h
  | str s => left; exact h
  | arr xs => left; exact h

theorem strOccursO_map_rewrite_le (t tmpl : String) (srcs : JObj)
    (h : strOccursO t (srcs.map fun p => (p.1, rewriteSourceJ tmpl p.2)) = true) :
    strOccursO t (srcs.map fun p => (p.1, stripSourceJ p.2)) = true ∨
      substrB t tmpl = true ∨ substrB t "xyz" = true := by
  induction srcs with
  | nil => simp [strOccursO_nil] at h
  | cons p ps ih =>
    rw [List.map_cons, strOccursO_cons] at h
    rcases Bool.or_eq_true_iff.mp h with h | h
    · rcases strOccursJ_rewriteSource_le t tmpl p.2 h with h | h
      · left
        rw [List.map_cons, strOccursO_cons]
        rw [show ((p.1, stripSourceJ p.2) : String × Json).2 = stripSourceJ p.2
          from rfl, h, Bool.true_or]
      · right; exact h
    · rcases ih h with h | h
      · left
        rw [List.map_cons, strOccursO_cons, h, Bool.or_true]
      · right; exact h

theorem strOccursO_glyphs_step_le (t u : String) (s : JObj)
    (h : strOccursO t (rewrite_glyphs_step u s) = true) :
    strOccursO t (eraseKey s "glyphs") = true ∨ substrB t u = true := by
  unfold rewrite_glyphs_step at h
  by_cases hp : (alook s "glyphs").isSome
  · rw [if_pos hp] at h
    rcases strOccursO_setKey_le _ _ _ _ h with h | h
    · right
      rwa [strOccursJ_str] at h
    · exact Or.inl h
  · rw [if_neg hp] at h
    rw [eraseKey_of_not_mem s "glyphs"
      (Option.not_isSome_iff_eq_none.mp (by simpa using hp))]
    exact Or.inl h

theorem strOccursO_sprite_step_le (t u : String) (s : JObj)
    (h : strOccursO t (eraseKey (rewrite_sprite_step u s) "glyphs") = true) :
    strOccursO t (eraseKey (eraseKey s "sprite") "glyphs") = true ∨
      substrB t u = true := by
  unfold rewrite_sprite_step at h
  by_cases hp : (alook s "sprite").isSome
  · rw [if_pos hp] at h
    rw [eraseKey_setKey_comm s "sprite" "glyphs" _ (by decide)] at h
    rcases strOccursO_setKey_le _ _ _ _ h with h | h
    · right
      rwa [strOccursJ_str] at h
    · left
      rwa [eraseKey_comm] at h
  · rw [if_neg hp] at h
    rw [eraseKey_of_not_mem s "sprite"
      (Option.not_isSome_iff_eq_none.mp (by simpa using hp))]
    exact Or.inl h

theorem strOccursO_sources_step_le (t tmpl : String) (style : JObj)
    (h : strOccursO t
      (eraseKey (eraseKey (rewrite_sources_step tmpl style) "sprite") "glyphs")
        = true) :
    strOccursO t (strip_style style) = true ∨ substrB t tmpl = true ∨
      substrB t "xyz" = true := by
  unfold rewrite_sources_step at h
  unfold strip_style strip_sources_step
  have hsp : alook (eraseKey (eraseKey style "sprite") "glyphs") "sources" =
      alook style "sources" := by
    rw [alook_eraseKey_ne _ _ _ (by decide), alook_eraseKey_ne _ _ _ (by decide)]
  cases hsrc : alook style "sources" with
  | some v =>
    cases v with
    | obj srcs =>
      rw [hsrc] at h
      rw [hsp, hsrc]
      rw [eraseKey_setKey_comm _ "sources" "sprite" _ (by decide),
        eraseKey_setKey_comm _ "sources" "glyphs" _ (by decide)] at h
      rcases strOccursO_setKey_le _ _ _ _ h with h | h
      · rw [strOccursJ_obj] at h
        rcases strOccursO_map_rewrite_le t tmpl srcs h with h | h
        · left
          exact strOccursO_setKey_ge_val _ _ _ _ (by rwa [strOccursJ_obj])
        · right; exact h
      · left
        exact strOccursO_setKey_ge_erase _ _ _ _ h
    | null => rw [hsrc] at h; rw [hsp, hsrc]; exact Or.inl h
    | bool b => rw [hsrc] at h; rw [hsp, hsrc]; exact Or.inl h
    | num n => rw [hsrc] at h; rw [hsp, hsrc]; exact Or.inl h
    | str s => rw [hsrc] at h; rw [hsp, hsrc]; exact Or.inl h
    | arr xs => rw [hsrc] at h; rw [hsp, hsrc]; exact Or.inl h
  | none =>
    rw [hsrc] at h
    rw [hsp, hsrc]
    exact Or.inl h

theorem strOccursO_vt_style_le (gw aliasName keyq t : String) (style : JObj)
    (h : strOccursO t (vt_style_rewrite gw aliasName keyq style) = true) :
    strOccursO t (strip_style style) = true ∨
      substrB t (tileTemplate gw aliasName keyq) = true ∨
      substrB t "xyz" = true ∨
      substrB t (spriteURL gw aliasName keyq) = true ∨
      substrB t (glyphsURL gw aliasName keyq) = true := by
  unfold vt_style_rewrite at h
  rcases strOccursO_glyphs_step_le _ _ _ h with h | h
  · rcases strOccursO_sprite_step_le _ _ _ h with h | h
    · rcases strOccursO_sources_step_le _ _ _ h with h | h | h
      · exact Or.inl h
      · exact Or.inr (Or.inl h)
      · exact Or.inr (Or.inr (Or.inl h))
    · exact Or.inr (Or.inr (Or.inr (Or.inl h)))
  · exact Or.inr (Or.inr (Or.inr (Or.inr h)))

/-- The `is True` check holds exactly for the boolean `true`. -/
theorem disabledIsTrue_iff (j : Json) : disabledIsTrue j = true ↔ j = Json.bool true := by
  cases j with
  | bool b => cases b <;> simp [disabledIsTrue]
  | null => simp [disabledIsTrue]
  | num n => simp [disabledIsTrue]
  | str s => simp [disabledIsTrue]
  | arr xs => simp [disabledIsTrue]
  | obj o => simp [disabledIsTrue]

/-- The `is True` check fails for every other value. -/
theorem disabledIsTrue_eq_false (j : Json) (h : j ≠ Json.bool true) :
    disabledIsTrue j = false := by
  cases hdt : disabledIsTrue j with
  | false => rfl
  | true => exact absurd ((disabledIsTrue_iff j).mp hdt) h

/-- The service gate `if allowed and alias not in allowed` fires exactly
when the list is non-empty and excludes the alias. -/
theorem services_block_iff (l : List String) (a : String) :
    (!l.isEmpty && !l.contains a) = true ↔ (l ≠ [] ∧ a ∉ l) := by
  rw [Bool.and_eq_true, Bool.not_eq_true', Bool.not_eq_true',
    Bool.eq_false_iff, Bool.eq_false_iff]
  constructor
  · intro ⟨h1, h2⟩
    refine ⟨fun hl => h1 (by rw [hl]; rfl), fun hm => h2 (List.elem_iff.mpr hm)⟩
  · intro ⟨h1, h2⟩
    refine ⟨fun hl => h1 (List.isEmpty_iff.mp hl), fun hm => h2 (List.elem_iff.mp hm)⟩

/-! ### Claim theorems -/

/-- C1: authorization succeeds exactly when the conjunction holds: the
combined stripped key is non-empty, it matches a client record, the record
is not disabled (`disabled is True` fails), and the record's service list
is empty or contains the alias.  A missing, unknown, or disabled key fails
with status 401 and a short reason; a non-empty service list excluding the
alias fails with 403.  The embedding is a pure read of the registry, so no
write to the registries can occur. -/
theorem c1_enforce_access_authorization (clients : ClientsReg)
    (aliasName : String) (x_api_key key : Option String) :
    (∀ rec, enforce_access clients aliasName x_api_key key = .ok rec ↔
      (pyStrip (pyOr x_api_key key) ≠ ""
        ∧ alook clients (pyStrip (pyOr x_api_key key)) = some rec
        ∧ rec.disabled ≠ Json.bool true
        ∧ (rec.services = [] ∨ aliasName ∈ rec.services)))
    ∧ (pyStrip (pyOr x_api_key key) = "" →
        enforce_access clients aliasName x_api_key key =
          .error ⟨401, "Unauthorized: missing key"⟩)
    ∧ (pyStrip (pyOr x_api_key key) ≠ "" →
        alook clients (pyStrip (pyOr x_api_key key)) = none →
        enforce_access clients aliasName x_api_key key =
          .error ⟨401, "Unauthorized: invalid key"⟩)
    ∧ (∀ rec, pyStrip (pyOr x_api_key key) ≠ "" →
        alook clients (pyStrip (pyOr x_api_key key)) = some rec →
        rec.disabled = Json.bool true →
        enforce_access clients aliasName x_api_key key =
          .error ⟨401, "Unauthorized: key disabled"⟩)
    ∧ (∀ rec, pyStrip (pyOr x_api_key key) ≠ "" →
        alook clients (pyStrip (pyOr x_api_key key)) = some rec →
        rec.disabled ≠ Json.bool true →
        rec.services ≠ [] → aliasName ∉ rec.services →
        enforce_access clients aliasName x_api_key key =
          .error ⟨403, "Forbidden: service not allowed for this key"⟩) := by
  by_cases hck : pyStrip (pyOr x_api_key key) = ""
  · have he : enforce_access clients aliasName x_api_key key =
        .error ⟨401, "Unauthorized: missing key"⟩ := by
      simp [enforce_access, hck]
    refine ⟨?_, fun _ => he, ?_, ?_, ?_⟩
    · intro rec
      rw [he]
      constructor
      · intro h
        simp at h
      · rintro ⟨hne, -⟩
        exact absurd hck hne
    · intro hne
      exact absurd hck hne
    · intro rec hne
      exact absurd hck hne
    · intro rec hne
      exact absurd hck hne
  · cases halook : alook clients (pyStrip (pyOr x_api_key key)) with
    | none =>
      have he : enforce_access clients aliasName x_api_key key =
          .error ⟨401, "Unauthorized: invalid key"⟩ := by
        simp [enforce_access, get_client_record, hck, halook]
      refine ⟨?_, fun h => absurd h hck, fun _ _ => he, ?_, ?_⟩
      · intro rec
        rw [he]
        constructor
        · intro h
          simp at h
        · rintro ⟨-, hl, -⟩
          simp at hl
      · intro rec hne hl
        simp at hl
      · intro rec hne hl
        simp at hl
    | some rec0 =>
      by_cases hdis : disabledIsTrue rec0.disabled
      · have hd : rec0.disabled = Json.bool true :=
          (disabledIsTrue_iff rec0.disabled).mp hdis
        have he : enforce_access clients aliasName x_api_key key =
            .error ⟨401, "Unauthorized: key disabled"⟩ := by
          simp [enforce_access, get_client_record, hck, halook, hdis]
        refine ⟨?_, fun h => absurd h hck, ?_, fun rec _ hl hrd => he, ?_⟩
        · intro rec
          rw [he]
          constructor
          · intro h
            simp at h
          · rintro ⟨-, hl, hrd, -⟩
            injection hl with h2
            rw [← h2] at hrd
            exact absurd hd hrd
        · intro hne hl
          simp at hl
        · intro rec hne hl hrd
          injection hl with h2
          rw [← h2] at hrd
          exact absurd hd hrd
      · have hd : rec0.disabled ≠ Json.bool true := by
          intro hh
          exact hdis ((disabledIsTrue_iff rec0.disabled).mpr hh)
        rw [Bool.not_eq_true] at hdis
        by_cases hsvc :
            (!rec0.services.isEmpty && !rec0.services.contains aliasName) = true
        · obtain ⟨hsne, hsnm⟩ := (services_block_iff _ _).mp hsvc
          have he : enforce_access clients aliasName x_api_key key =
              .error ⟨403, "Forbidden: service not allowed for this key"⟩ := by
            simp only [enforce_access, get_client_record, halook]
            rw [if_neg hck]
            simp only [hdis, Bool.false_eq_true, if_false]
            rw [if_pos hsvc]
          refine ⟨?_, fun h => absurd h hck, ?_, ?_, fun rec _ hl _ _ _ => he⟩
          · intro rec
            rw [he]
            constructor
            · intro h
              simp at h
            · rintro ⟨-, hl, -, hsv⟩
              injection hl with h2
              rw [← h2] at hsv
              rcases hsv with hsv | hsv
              · exact absurd hsv hsne
              · exact absurd hsv hsnm
          · intro hne hl
            simp at hl
          · intro rec hne hl hrd
            injection hl with h2
            rw [← h2] at hrd
            exact absurd hrd hd
        · have he : enforce_access clients aliasName x_api_key key = .ok rec0 := by
            simp only [enforce_access, get_client_record, halook]
            rw [if_neg hck]
            simp only [hdis, Bool.false_eq_true, if_false]
            rw [if_neg hsvc]
          have hsv : rec0.services = [] ∨ aliasName ∈ rec0.services := by
            by_cases hemp : rec0.services = []
            · exact Or.inl hemp
            · right
              by_cases hmem : aliasName ∈ rec0.services
              · exact hmem
              · exact absurd ((services_block_iff _ _).mpr ⟨hemp, hmem⟩) hsvc
          refine ⟨?_, fun h => absurd h hck, ?_, ?_, ?_⟩
          · intro rec
            rw [he]
            constructor
            · intro h
              injection h with h2
              subst h2
              exact ⟨hck, rfl, hd, hsv⟩
            · rintro ⟨-, hl, -⟩
              injection hl with h2
              rw [h2]
          · intro hne hl
            simp at hl
          · intro rec hne hl hrd
            injection hl with h2
            rw [← h2] at hrd
            exact absurd hrd hd
          · intro rec hne hl hrd hne2 hnm
            injection hl with h2
            rw [← h2] at hne2 hnm
            rcases hsv with hsv2 | hsv2
            · exact absurd hsv2 hne2
            · exact absurd hsv2 hnm

/-- C1 witness: the success and 403 branches at concrete registries. -/
theorem c1_witness :
    enforce_access [("CK1", ⟨"c", ["parks"], Json.bool false, []⟩)] "parks"
        (some "CK1") none = .ok ⟨"c", ["parks"], Json.bool false, []⟩
    ∧ enforce_access [("CK1", ⟨"c", ["parks"], Json.bool false, []⟩)] "roads"
        (some "CK1") none =
        .error ⟨403, "Forbidden: service not allowed for this key"⟩
    ∧ enforce_access [("CK1", ⟨"c", ["parks"], Json.bool false, []⟩)] "parks"
        none none = .error ⟨401, "Unauthorized: missing key"⟩ := by
  refine ⟨?_, ?_, ?_⟩
  · exact ((c1_enforce_access_authorization
      [("CK1", ⟨"c", ["parks"], Json.bool false, []⟩)] "parks"
      (some "CK1") none).1 ⟨"c", ["parks"], Json.bool false, []⟩).mpr
      ⟨by decide, rfl, by simp, Or.inr (by decide)⟩
  · exact (c1_enforce_access_authorization
      [("CK1", ⟨"c", ["parks"], Json.bool false, []⟩)] "roads"
      (some "CK1") none).2.2.2.2 ⟨"c", ["parks"], Json.bool false, []⟩
      (by decide) rfl (by simp) (by decide) (by decide)
  · exact (c1_enforce_access_authorization
      [("CK1", ⟨"c", ["parks"], Json.bool false, []⟩)] "parks"
      none none).2.1 (by decide)

/-- C2: `sanitize_outfields` returns the comma-join of all allowed fields
for an absent, empty, or wildcard request; otherwise it keeps exactly the
requested fields that are in the allowed list, in the caller's order,
falling back to the full allowed list when the intersection is empty; the
spec's two worked examples hold; and (for a non-empty allowed list) the
result is always the comma-join of a non-empty list of allowed fields, so
no field outside the allowed list ever appears. -/
theorem c2_sanitize_outfields_contract (allowed : List String) :
    (sanitize_outfields none allowed = pyJoinComma allowed
      ∧ sanitize_outfields (some "") allowed = pyJoinComma allowed
      ∧ sanitize_outfields (some "*") allowed = pyJoinComma allowed)
    ∧ (∀ r : String, r ≠ "" → pyStrip r ≠ "*" →
        sanitize_outfields (some r) allowed =
          (if (((pySplitComma r).map pyStrip).filter (fun f => f ≠ "")).filter
                (fun f => allowed.contains f) = [] then
            pyJoinComma allowed
          else
            pyJoinComma ((((pySplitComma r).map pyStrip).filter
              (fun f => f ≠ "")).filter (fun f => allowed.contains f))))
    ∧ sanitize_outfields (some "a,zzz") ["a", "b"] = "a"
    ∧ sanitize_outfields (some "zzz") ["a", "b"] = "a,b"
    ∧ (allowed ≠ [] → ∀ ro : Option String, ∃ l : List String,
        l ≠ [] ∧ (∀ f ∈ l, f ∈ allowed) ∧
          sanitize_outfields ro allowed = pyJoinComma l) := by
  refine ⟨⟨rfl, rfl, rfl⟩, ?_, by decide, by decide, ?_⟩
  · intro r h1 h2
    have hz : sanitize_outfields (some r) allowed =
        (if ((((pySplitComma r).map pyStrip).filter (fun f => f ≠ "")).filter
              (fun f => allowed.contains f)).isEmpty then
          pyJoinComma allowed
        else
          pyJoinComma ((((pySplitComma r).map pyStrip).filter
            (fun f => f ≠ "")).filter (fun f => allowed.contains f))) := by
      simp only [sanitize_outfields]
      rw [if_neg (by push_neg; exact ⟨h1, h2⟩)]
    rw [hz]
    cases hsafe : (((pySplitComma r).map pyStrip).filter (fun f => f ≠ "")).filter
        (fun f => allowed.contains f) with
    | nil => simp [hsafe]
    | cons a l => simp [hsafe]
  · intro hne ro
    match ro with
    | none => exact ⟨allowed, hne, fun f hf => hf, rfl⟩
    | some r =>
      by_cases hcond : r = "" ∨ pyStrip r = "*"
      · refine ⟨allowed, hne, fun f hf => hf, ?_⟩
        simp only [sanitize_outfields]
        rw [if_pos hcond]
      · cases hsafe : (((pySplitComma r).map pyStrip).filter (fun f => f ≠ "")).filter
            (fun f => allowed.contains f) with
        | nil =>
          refine ⟨allowed, hne, fun f hf => hf, ?_⟩
          simp only [sanitize_outfields]
          rw [if_neg hcond]
          show (if ((((pySplitComma r).map pyStrip).filter (fun f => f ≠ "")).filter
              (fun f => allowed.contains f)).isEmpty then
            pyJoinComma allowed
          else _) = _
          rw [hsafe]
          simp
        | cons a l =>
          refine ⟨a :: l, by simp, ?_, ?_⟩
          · intro f hf
            rw [← hsafe] at hf
            have hc := List.of_mem_filter hf
            exact List.elem_iff.mp hc
          · simp only [sanitize_outfields]
            rw [if_neg hcond]
            show (if ((((pySplitComma r).map pyStrip).filter (fun f => f ≠ "")).filter
                (fun f => allowed.contains f)).isEmpty then
              pyJoinComma allowed
            else _) = _
            rw [hsafe]
            simp

/-- C2 witness: the contract applied at concrete inputs. -/
theorem c2_witness :
    sanitize_outfields (some "name,zzz") ["id", "name"] = "name"
    ∧ ∃ l : List String, l ≠ [] ∧ (∀ f ∈ l, f ∈ ["id", "name"])
        ∧ sanitize_outfields (some "zzz") ["id", "name"] = pyJoinComma l := by
  constructor
  · have h := (c2_sanitize_outfields_contract ["id", "name"]).2.1 "name,zzz"
      (by decide) (by decide)
    rw [h]
    decide
  · exact (c2_sanitize_outfields_contract ["id", "name"]).2.2.2.2 (by decide)
      (some "zzz")

/-- C3 counterexample: a where-lock configured as the empty string is a
configured lock for the alias, yet `apply_where_lock` (Python
`if not lock`) ignores it and returns the where-clause unchanged instead
of the claimed `(W) AND (L)`. -/
theorem c3_counterexample :
    apply_where_lock ⟨"c", [], Json.bool false, [("parks", "")]⟩ "parks"
        "POP>100" = "POP>100"
    ∧ "POP>100" ≠ "(POP>100) AND ()" := by
  exact ⟨rfl, by decide⟩

/-- C3 (amended): with no configured lock for the alias the where-clause is
returned unchanged; with a configured NON-EMPTY lock `L` the result is
exactly `(W) AND (L)` (a configured empty-string lock is falsy in Python
and is ignored); and the identify endpoint applies the lock to the
implicit `1=1`, sending `(1=1) AND (L)` upstream for a locked client. -/
theorem c3_apply_where_lock (rec : ClientRecord) (aliasName w : String) :
    (alook rec.where_lock aliasName = none →
      apply_where_lock rec aliasName w = w)
    ∧ (∀ L, alook rec.where_lock aliasName = some L → L ≠ "" →
        apply_where_lock rec aliasName w = "(" ++ w ++ ") AND (" ++ L ++ ")")
    ∧ identify_where_final rec aliasName = apply_where_lock rec aliasName "1=1"
    ∧ (∀ L, alook rec.where_lock aliasName = some L → L ≠ "" →
        identify_where_final rec aliasName = "(1=1) AND (" ++ L ++ ")") := by
  refine ⟨?_, ?_, rfl, ?_⟩
  · intro h
    unfold apply_where_lock
    rw [h]
  · intro L hL hne
    unfold apply_where_lock
    rw [hL]
    exact if_neg hne
  · intro L hL hne
    unfold identify_where_final apply_where_lock
    rw [hL]
    exact if_neg hne

/-- C3 witness: the amended contract applied at a concrete locked client. -/
theorem c3_witness :
    apply_where_lock ⟨"c", [], Json.bool false, [("parks", "STATE=OH")]⟩
      "parks" "POP>100" = "(POP>100) AND (STATE=OH)" := by
  have h := (c3_apply_where_lock
    ⟨"c", [], Json.bool false, [("parks", "STATE=OH")]⟩ "parks" "POP>100").2.1
    "STATE=OH" rfl (by decide)
  rw [h]
  decide

/-- C10: a matched record is rejected as disabled only when its `disabled`
field is exactly the boolean `true`; any other value (e.g. the string
`"true"` or the number `1`) leaves the record usable, and authorization
proceeds as for an enabled client. -/
theorem c10_disabled_is_true_only (clients : ClientsReg) (k : String)
    (rec : ClientRecord) :
    (∀ j : Json, disabledIsTrue j = true ↔ j = Json.bool true)
    ∧ (alook clients k = some rec → rec.disabled ≠ Json.bool true →
        get_client_record clients k = .ok rec)
    ∧ (alook clients k = some rec → rec.disabled = Json.bool true →
        get_client_record clients k =
          .error ⟨401, "Unauthorized: key disabled"⟩)
    ∧ (pyStrip k = k → k ≠ "" → alook clients k = some rec →
        rec.disabled ≠ Json.bool true → rec.services = [] →
        ∀ aliasName, enforce_access clients aliasName (some k) none = .ok rec) := by
  have hiff : ∀ j : Json, disabledIsTrue j = true ↔ j = Json.bool true := by
    intro j
    cases j with
    | bool b => cases b <;> simp [disabledIsTrue]
    | null => simp [disabledIsTrue]
    | num n => simp [disabledIsTrue]
    | str s => simp [disabledIsTrue]
    | arr xs => simp [disabledIsTrue]
    | obj o => simp [disabledIsTrue]
  have hfalse : ∀ j : Json, j ≠ Json.bool true → disabledIsTrue j = false := by
    intro j hj
    cases hdt : disabledIsTrue j with
    | false => rfl
    | true => exact absurd ((hiff j).mp hdt) hj
  refine ⟨hiff, ?_, ?_, ?_⟩
  · intro h hne
    simp [get_client_record, h, hfalse rec.disabled hne]
  · intro h hd
    simp [get_client_record, h, (hiff rec.disabled).mpr hd]
  · intro hstrip hne h hd hsvc aliasName
    have hk : pyStrip (pyOr (some k) none) = k := by
      simp [pyOr, hne, hstrip]
    simp [enforce_access, hk, hne, get_client_record, h,
      hfalse rec.disabled hd, hsvc]

/-- C10 witness: a record whose `disabled` field is the truthy string
`"true"` still authorizes. -/
theorem c10_witness :
    get_client_record [("CK1", ⟨"c", [], Json.str "true", []⟩)] "CK1" =
        .ok ⟨"c", [], Json.str "true", []⟩
    ∧ get_client_record [("CK2", ⟨"c", [], Json.num 1, []⟩)] "CK2" =
        .ok ⟨"c", [], Json.num 1, []⟩
    ∧ enforce_access [("CK1", ⟨"c", [], Json.str "true", []⟩)] "parks"
        (some "CK1") none = .ok ⟨"c", [], Json.str "true", []⟩ := by
  refine ⟨?_, ?_, ?_⟩
  · exact (c10_disabled_is_true_only [("CK1", ⟨"c", [], Json.str "true", []⟩)]
      "CK1" ⟨"c", [], Json.str "true", []⟩).2.1 rfl (by simp)
  · exact (c10_disabled_is_true_only [("CK2", ⟨"c", [], Json.num 1, []⟩)]
      "CK2" ⟨"c", [], Json.num 1, []⟩).2.1 rfl (by simp)
  · exact (c10_disabled_is_true_only [("CK1", ⟨"c", [], Json.str "true", []⟩)]
      "CK1" ⟨"c", [], Json.str "true", []⟩).2.2.2 (by decide) (by decide) rfl
      (by simp) rfl "parks"

/-- C4: the query endpoint's response carries exactly the scrubbed feature
list, every feature object in it has no `geometry` member (for arbitrary
upstream payloads), and every identify result consists of exactly an
`attributes` member — so neither endpoint ever exposes geometry. -/
theorem c4_geometry_never_exposed :
    (∀ j : JObj, featuresOf (query_response j) =
      query_scrub_features (featuresOf j))
    ∧ (∀ feats : List Json, ∀ f ∈ query_scrub_features feats, ∀ o : JObj,
        f = Json.obj o → "geometry" ∉ keysOf o)
    ∧ (∀ (allowed : List String) (feats : List Json),
        ∀ r ∈ identify_results allowed feats, keysOf r = ["attributes"]) := by
  refine ⟨?_, ?_, ?_⟩
  · intro j
    unfold query_response featuresOf
    rw [alook_setKey_self]
  · intro feats f hf o hfo
    unfold query_scrub_features at hf
    obtain ⟨g, hg, rfl⟩ := List.mem_map.mp hf
    cases g with
    | obj og =>
      unfold dropGeometry at hfo
      injection hfo with h2
      rw [← h2]
      exact keysOf_eraseKey_not_mem og "geometry"
    | null => simp [dropGeometry] at hfo
    | bool b => simp [dropGeometry] at hfo
    | num n => simp [dropGeometry] at hfo
    | str s => simp [dropGeometry] at hfo
    | arr xs => simp [dropGeometry] at hfo
  · intro allowed feats r hr
    unfold identify_results at hr
    obtain ⟨g, hg, rfl⟩ := List.mem_map.mp hr
    rfl

/-- C4 witness: the geometry scrub at a concrete upstream payload. -/
theorem c4_witness :
    featuresOf (query_response [("features", Json.arr [Json.obj
        [("attributes", Json.obj [("A", Json.num 1)]),
         ("geometry", Json.str "POINT")]])]) =
      query_scrub_features [Json.obj
        [("attributes", Json.obj [("A", Json.num 1)]),
         ("geometry", Json.str "POINT")]]
    ∧ "geometry" ∉ keysOf (eraseKey
        [("attributes", Json.obj [("A", Json.num 1)]),
         ("geometry", Json.str "POINT")] "geometry")
    ∧ keysOf (identify_clean_one ["A"]
        (Json.obj [("attributes", Json.obj [("A", Json.num 1)])])) =
      ["attributes"] := by
  refine ⟨?_, ?_, ?_⟩
  · exact c4_geometry_never_exposed.1 [("features", Json.arr [Json.obj
      [("attributes", Json.obj [("A", Json.num 1)]),
       ("geometry", Json.str "POINT")]])]
  · exact c4_geometry_never_exposed.2.1
      [Json.obj [("attributes", Json.obj [("A", Json.num 1)]),
        ("geometry", Json.str "POINT")]]
      (dropGeometry (Json.obj [("attributes", Json.obj [("A", Json.num 1)]),
        ("geometry", Json.str "POINT")]))
      (by simp [query_scrub_features])
      (eraseKey [("attributes", Json.obj [("A", Json.num 1)]),
        ("geometry", Json.str "POINT")] "geometry") rfl
  · exact c4_geometry_never_exposed.2.2 ["A"]
      [Json.obj [("attributes", Json.obj [("A", Json.num 1)])]]
      (identify_clean_one ["A"]
        (Json.obj [("attributes", Json.obj [("A", Json.num 1)])]))
      (by simp [identify_results])

/-- C5: each identify result's attribute keys are exactly the whitelist
restricted to the keys the upstream feature carries, in whitelist order —
so extra upstream fields are masked and the keys are always a subset of
the whitelist — and the response has shape `{count, results}` with `count`
the number of results.  `allowed.Nodup` records the data-model invariant
that the whitelist is an ordered set, under which this association-list
model coincides with the Python dict comprehension. -/
theorem c5_identify_whitelist_mask (allowed : List String) (f : Json)
    (feats : List Json) (_hnd : allowed.Nodup) :
    (∀ a : JObj,
      alook (identify_clean_one allowed f) "attributes" = some (Json.obj a) →
      keysOf a = allowed.filter (fun k => (keysOf (attrsOf f)).contains k)
      ∧ ∀ k ∈ keysOf a, k ∈ allowed)
    ∧ keysOf (identify_response allowed feats) = ["count", "results"]
    ∧ alook (identify_response allowed feats) "count" =
        some (Json.num ((identify_results allowed feats).length : Int))
    ∧ alook (identify_response allowed feats) "results" =
        some (Json.arr ((identify_results allowed feats).map Json.obj)) := by
  refine ⟨?_, rfl, rfl, rfl⟩
  intro a ha
  have hval : alook (identify_clean_one allowed f) "attributes" =
      some (Json.obj ((allowed.filter fun k =>
        (alook (attrsOf f) k).isSome).map
          fun k => (k, (alook (attrsOf f) k).getD Json.null))) := rfl
  rw [hval] at ha
  injection ha with ha
  injection ha with ha
  have hkeys : keysOf a = allowed.filter fun k =>
      (alook (attrsOf f) k).isSome := by
    rw [← ha]
    unfold keysOf
    rw [List.map_map]
    exact List.map_id'' (fun x => rfl) _
  have hpred : ∀ k, (alook (attrsOf f) k).isSome =
      (keysOf (attrsOf f)).contains k := by
    intro k
    by_cases hm : k ∈ keysOf (attrsOf f)
    · rw [(alook_isSome_iff _ _).mpr hm]
      exact (List.elem_iff.mpr hm).symm
    · have h1 : (alook (attrsOf f) k).isSome = false := by
        rw [← Bool.not_eq_true]
        intro hh
        exact hm ((alook_isSome_iff _ _).mp hh)
      have h2 : (keysOf (attrsOf f)).contains k = false := by
        rw [← Bool.not_eq_true]
        intro hh
        exact hm (List.elem_iff.mp hh)
      rw [h1, h2]
  constructor
  · rw [hkeys]
    exact List.filter_congr fun k _ => hpred k
  · intro k hk
    rw [hkeys] at hk
    exact List.mem_of_mem_filter hk

/-- C5 witness: an upstream feature with an extra `SECRET` field is masked
to the whitelist. -/
theorem c5_witness :
    keysOf [("NAME", Json.str "x")] =
      ["OBJECTID", "NAME"].filter (fun k =>
        (keysOf (attrsOf (Json.obj [("attributes", Json.obj
          [("NAME", Json.str "x"), ("SECRET", Json.num 7)])]))).contains k)
    ∧ ∀ k ∈ keysOf [("NAME", Json.str "x")], k ∈ ["OBJECTID", "NAME"] :=
  (c5_identify_whitelist_mask ["OBJECTID", "NAME"]
    (Json.obj [("attributes", Json.obj
      [("NAME", Json.str "x"), ("SECRET", Json.num 7)])])
    [] (by decide)).1 [("NAME", Json.str "x")] rfl

/-- C6: the cached token is returned with no upstream call exactly when the
cache holds a (non-empty) token and the current time is more than 60
seconds before the cached expiry; otherwise, with a well-formed auth
configuration, the exchange is performed and: an upstream error payload
fails 500 carrying the upstream message, a missing (or falsy) token or
expiry fails 500 with a distinct reason, and on success both the cached
token and the cached expiry are replaced before the new token is
returned. -/
theorem c6_get_agol_token_contract (c : TokenCache) (now : Rat)
    (cfg : AuthCfg) (resp : AgolResp) :
    (((get_agol_token c now cfg resp).networkCall = false
        ∧ ∃ t, c.token = some t ∧ (get_agol_token c now cfg resp).result = .ok t)
      ↔ c.valid now = true)
    ∧ (c.valid now = true →
        get_agol_token c now cfg resp = ⟨.ok (c.token.getD ""), c, false⟩)
    ∧ (c.valid now = false → cfg.authType = "generateToken" →
        cfg.username ≠ "" → cfg.password ≠ "" →
        (get_agol_token c now cfg resp).networkCall = true
        ∧ (resp.hasError = true → get_agol_token c now cfg resp =
            ⟨.error ⟨500, "AGOL token error: " ++ resp.errText⟩, c, true⟩)
        ∧ (resp.hasError = false →
            (resp.token = none ∨ resp.token = some "" ∨
              resp.expires = none ∨ resp.expires = some 0) →
            get_agol_token c now cfg resp =
              ⟨.error ⟨500, "AGOL token response missing token/expires"⟩, c, true⟩)
        ∧ (∀ t e, resp.hasError = false → resp.token = some t → t ≠ "" →
            resp.expires = some e → e ≠ 0 →
            get_agol_token c now cfg resp =
              ⟨.ok t, ⟨some t, (e : Rat) / 1000⟩, true⟩))
    ∧ (∀ s : String,
        "AGOL token error: " ++ s ≠ "AGOL token response missing token/expires")
    := by
  refine ⟨?_, ?_, ?_, ?_⟩
  · constructor
    · rintro ⟨hnc, t, ht, hres⟩
      by_cases hv : c.valid now
      · exact hv
      · exfalso
        rw [Bool.not_eq_true] at hv
        unfold get_agol_token at hnc hres
        simp only [hv, Bool.false_eq_true, if_false] at hnc hres
        by_cases h1 : cfg.authType ≠ "generateToken"
        · rw [if_pos h1] at hres
          simp at hres
        · rw [if_neg h1] at hnc hres
          by_cases h2 : cfg.username = "" ∨ cfg.password = ""
          · rw [if_pos h2] at hres
            simp at hres
          · rw [if_neg h2] at hnc
            by_cases h3 : resp.hasError
            · rw [if_pos h3] at hnc
              simp at hnc
            · rw [if_neg h3] at hnc
              rcases htk : resp.token with _ | t' <;>
                rcases hex : resp.expires with _ | e <;>
                  rw [htk, hex] at hnc <;> simp [apply_ite] at hnc
    · intro hv
      unfold get_agol_token
      rw [if_pos hv]
      refine ⟨rfl, ?_⟩
      unfold TokenCache.valid at hv
      rw [Bool.and_eq_true] at hv
      cases htk : c.token with
      | none => rw [htk] at hv; simp at hv
      | some s => exact ⟨s, rfl, rfl⟩
  · intro hv
    unfold get_agol_token
    rw [if_pos hv]
  · intro hv h1 h2 h3
    have hrest : get_agol_token c now cfg resp =
        (if resp.hasError = true then
          ⟨.error ⟨500, "AGOL token error: " ++ resp.errText⟩, c, true⟩
        else
          match resp.token, resp.expires with
          | some t, some e =>
            if t = "" ∨ e = 0 then
              ⟨.error ⟨500, "AGOL token response missing token/expires"⟩, c, true⟩
            else ⟨.ok t, ⟨some t, (e : Rat) / 1000⟩, true⟩
          | _, _ =>
            ⟨.error ⟨500, "AGOL token response missing token/expires"⟩, c, true⟩) := by
      unfold get_agol_token
      rw [if_neg (by simp [hv]), if_neg (by simp [h1]),
        if_neg (by push_neg; exact ⟨h2, h3⟩)]
    refine ⟨?_, ?_, ?_, ?_⟩
    · rw [hrest]
      by_cases he : resp.hasError = true
      · rw [if_pos he]
      · rw [if_neg he]
        rcases resp.token with _ | t <;> rcases resp.expires with _ | e <;>
          first
            | rfl
            | simp [apply_ite]
    · intro he
      rw [hrest, if_pos he]
    · intro he hmiss
      rw [hrest, if_neg (by simp [he])]
      rcases hmiss with htk | htk | hex | hex
      · rw [htk]
      · rw [htk]
        cases hex2 : resp.expires with
        | none => rfl
        | some e => simp
      · rw [hex]
        cases resp.token <;> rfl
      · rw [hex]
        cases htk2 : resp.token with
        | none => rfl
        | some t => simp
    · intro t e he htk hte hex hee
      rw [hrest, if_neg (by simp [he]), htk, hex]
      have hcond : ¬(t = "" ∨ e = 0) := by
        push_neg
        exact ⟨hte, hee⟩
      simp [hcond]
  · intro s h
    have hd : "AGOL token error: ".data ++ s.data =
        "AGOL token response missing token/expires".data := congrArg String.data h
    have h18 := congrArg (fun l => List.take 18 l) hd
    simp only at h18
    rw [show (18 : Nat) = "AGOL token error: ".data.length from by decide] at h18
    rw [List.take_left] at h18
    exact absurd h18 (by decide)

/-- C6 witness: the cached branch and the success branch at concrete
inputs. -/
theorem c6_witness :
    get_agol_token ⟨some "TOK", 100⟩ 0 ⟨"generateToken", "u", "p"⟩
        ⟨false, "", some "NEW", some 3600000⟩ = ⟨.ok "TOK", ⟨some "TOK", 100⟩, false⟩
    ∧ get_agol_token ⟨none, 0⟩ 0 ⟨"generateToken", "u", "p"⟩
        ⟨false, "", some "NEW", some 3600000⟩ =
        ⟨.ok "NEW", ⟨some "NEW", ((3600000 : Int) : Rat) / 1000⟩, true⟩ := by
  constructor
  · exact (c6_get_agol_token_contract ⟨some "TOK", 100⟩ 0
      ⟨"generateToken", "u", "p"⟩ ⟨false, "", some "NEW", some 3600000⟩).2.1
      (by simp [TokenCache.valid]; norm_num)
  · exact ((c6_get_agol_token_contract ⟨none, 0⟩ 0
      ⟨"generateToken", "u", "p"⟩ ⟨false, "", some "NEW", some 3600000⟩).2.2.1
      rfl rfl (by decide) (by decide)).2.2.2 "NEW" 3600000 rfl rfl (by decide)
      rfl (by decide)

/-- C8 counterexample: the `vt_sprite_json` and `vt_sprite_png` endpoints
(the very lines the claim cites) have no `status_code == 404` check — an
upstream 404 reaches `raise_for_status` and raises, producing a failure
rather than the claimed 404 pass-through.  The @2x variant shows the
contrasting behavior the claim describes. -/
theorem c8_counterexample :
    vt_sprite_json_fetch ⟨404, []⟩ = .error (.httpStatus 404)
    ∧ vt_sprite_png_fetch ⟨404, [7]⟩ = .error (.httpStatus 404)
    ∧ vt_sprite2x_png_fetch ⟨404, [7]⟩ = .ok ⟨404, [], none⟩ :=
  ⟨rfl, rfl, rfl⟩

/-- C8 (amended): after authorization and token acquisition the byte
endpoints forward to the corresponding upstream paths (`vt_tile_url`,
`fonts_url`, `sprite_json_url`, `sprite_png_url`); the tile, font, and
@2x-sprite endpoints pass an upstream 404 through as a 404 response while
the plain `sprite.json`/`sprite.png` endpoints treat 404 like any other
non-success status (a raised failure); every endpoint fails on a non-2xx,
non-404 status; and on upstream success the binary payload is returned
unchanged with `application/x-protobuf` for tiles and fonts and
`image/png` for sprite images. -/
theorem c8_byte_fetch_translation (r : UpResp) :
    (r.status = 404 →
      vt_tile_fetch r = .ok ⟨404, [], none⟩
      ∧ vt_fonts_fetch r = .ok ⟨404, [], none⟩
      ∧ vt_sprite2x_png_fetch r = .ok ⟨404, [], none⟩
      ∧ vt_sprite_json_fetch r = .error (.httpStatus 404)
      ∧ vt_sprite_png_fetch r = .error (.httpStatus 404))
    ∧ (isSuccessStatus r.status = true →
      vt_tile_fetch r = .ok ⟨200, r.body, some "application/x-protobuf"⟩
      ∧ vt_fonts_fetch r = .ok ⟨200, r.body, some "application/x-protobuf"⟩
      ∧ vt_sprite_png_fetch r = .ok ⟨200, r.body, some "image/png"⟩
      ∧ vt_sprite2x_png_fetch r = .ok ⟨200, r.body, some "image/png"⟩
      ∧ vt_sprite_json_fetch r = .ok ⟨200, r.body, some "application/json"⟩)
    ∧ (r.status ≠ 404 → isSuccessStatus r.status = false →
      vt_tile_fetch r = .error (.httpStatus r.status)
      ∧ vt_fonts_fetch r = .error (.httpStatus r.status)
      ∧ vt_sprite_json_fetch r = .error (.httpStatus r.status)
      ∧ vt_sprite_png_fetch r = .error (.httpStatus r.status)
      ∧ vt_sprite2x_png_fetch r = .error (.httpStatus r.status)) := by
  refine ⟨?_, ?_, ?_⟩
  · intro h404
    have hns : isSuccessStatus r.status = false := by
      rw [h404]
      decide
    refine ⟨?_, ?_, ?_, ?_, ?_⟩ <;>
      simp [vt_tile_fetch, vt_fonts_fetch, vt_sprite2x_png_fetch,
        vt_sprite_json_fetch, vt_sprite_png_fetch, h404, hns] <;>
      decide
  · intro hs
    have h404 : r.status ≠ 404 := by
      intro hh
      rw [hh] at hs
      exact absurd hs (by decide)
    refine ⟨?_, ?_, ?_, ?_, ?_⟩ <;>
      simp [vt_tile_fetch, vt_fonts_fetch, vt_sprite2x_png_fetch,
        vt_sprite_json_fetch, vt_sprite_png_fetch, h404, hs]
  · intro h404 hns
    refine ⟨?_, ?_, ?_, ?_, ?_⟩ <;>
      simp [vt_tile_fetch, vt_fonts_fetch, vt_sprite2x_png_fetch,
        vt_sprite_json_fetch, vt_sprite_png_fetch, h404, hns]

/-- C8 witness: the translation at concrete upstream statuses. -/
theorem c8_witness :
    vt_tile_fetch ⟨404, []⟩ = .ok ⟨404, [], none⟩
    ∧ vt_tile_fetch ⟨200, [1, 2]⟩ = .ok ⟨200, [1, 2], some "application/x-protobuf"⟩
    ∧ vt_sprite_png_fetch ⟨200, [9]⟩ = .ok ⟨200, [9], some "image/png"⟩
    ∧ vt_tile_fetch ⟨500, [0]⟩ = .error (.httpStatus 500) := by
  refine ⟨?_, ?_, ?_, ?_⟩
  · exact ((c8_byte_fetch_translation ⟨404, []⟩).1 rfl).1
  · exact ((c8_byte_fetch_translation ⟨200, [1, 2]⟩).2.1 (by decide)).1
  · exact ((c8_byte_fetch_translation ⟨200, [9]⟩).2.1 (by decide)).2.2.1
  · exact ((c8_byte_fetch_translation ⟨500, [0]⟩).2.2 (by decide) (by decide)).1

/-- C9: authorization (`enforce_access`) prefers the `x-api-key` header
over the `key` query parameter, while the style endpoint computes its
embedded key as `(key or x_api_key or "").strip()` — query parameter
first; so a request carrying two distinct keys is authorized under the
header key but the returned style document embeds the query key. -/
theorem c9_key_precedence_mismatch (gw aliasNm : String) (style : JObj) :
    (∀ hx hk : String, hx ≠ "" →
      pyStrip (pyOr (some hx) (some hk)) = pyStrip hx)
    ∧ (∀ hx hk : String, hk ≠ "" →
      vt_style_endpoint (some hx) (some hk) gw aliasNm style =
        vt_style_rewrite gw aliasNm (pyStrip hk) style)
    ∧ enforce_access [("KA", ⟨"client", [], Json.bool false, []⟩)] "svc"
        (some "KA") (some "KB") = .ok ⟨"client", [], Json.bool false, []⟩
    ∧ sourcesOf (vt_style_endpoint (some "KA") (some "KB") "https://gw" "svc"
        [("sources", Json.obj [("esri", Json.obj [("type", Json.str "vector")])])]) =
      [("esri", Json.obj [("type", Json.str "vector"),
        ("tiles", Json.arr [Json.str (tileTemplate "https://gw" "svc" "KB")]),
        ("scheme", Json.str "xyz"), ("minzoom", Json.num 0),
        ("maxzoom", Json.num 23)])]
    ∧ tileTemplate "https://gw" "svc" "KB" =
        "https://gw/tiles/svc/tile/{z}/{y}/{x}.pbf?key=KB"
    ∧ ("KB" : String) ≠ "KA" := by
  refine ⟨?_, ?_, rfl, rfl, by decide, by decide⟩
  · intro hx hk hne
    simp [pyOr, hne]
  · intro hx hk hne
    unfold vt_style_endpoint
    rw [show pyOr (some hk) (some hx) = hk from by simp [pyOr, hne]]

/-- C9 witness: the two precedence rules at concrete keys. -/
theorem c9_witness :
    pyStrip (pyOr (some "KA") (some "KB")) = pyStrip "KA"
    ∧ vt_style_endpoint (some "KA") (some "KB") "https://gw" "svc" [] =
        vt_style_rewrite "https://gw" "svc" (pyStrip "KB") [] := by
  constructor
  · exact (c9_key_precedence_mismatch "https://gw" "svc" []).1 "KA" "KB" (by decide)
  · exact (c9_key_precedence_mismatch "https://gw" "svc" []).2.1 "KA" "KB" (by decide)


theorem sourcesOf_sprite_step (u : String) (s : JObj) :
    sourcesOf (rewrite_sprite_step u s) = sourcesOf s := by
  unfold rewrite_sprite_step sourcesOf
  by_cases hp : (alook s "sprite").isSome
  · rw [if_pos hp, alook_setKey_ne _ _ _ _ (by decide)]
  · rw [if_neg hp]

theorem sourcesOf_glyphs_step (u : String) (s : JObj) :
    sourcesOf (rewrite_glyphs_step u s) = sourcesOf s := by
  unfold rewrite_glyphs_step sourcesOf
  by_cases hp : (alook s "glyphs").isSome
  · rw [if_pos hp, alook_setKey_ne _ _ _ _ (by decide)]
  · rw [if_neg hp]

theorem sourcesOf_sources_step (tmpl : String) (style : JObj) :
    sourcesOf (rewrite_sources_step tmpl style) =
      (sourcesOf style).map fun p => (p.1, rewriteSourceJ tmpl p.2) := by
  unfold rewrite_sources_step sourcesOf
  cases hsrc : alook style "sources" with
  | some v =>
    cases v with
    | obj srcs => rw [alook_setKey_self]
    | null => simp [hsrc]
    | bool b => simp [hsrc]
    | num n => simp [hsrc]
    | str s => simp [hsrc]
    | arr xs => simp [hsrc]
  | none => simp [hsrc]

theorem alook_sprite_step_other (u k : String) (s : JObj) (h : k ≠ "sprite") :
    alook (rewrite_sprite_step u s) k = alook s k := by
  unfold rewrite_sprite_step
  by_cases hp : (alook s "sprite").isSome
  · rw [if_pos hp, alook_setKey_ne _ _ _ _ h]
  · rw [if_neg hp]

theorem alook_glyphs_step_other (u k : String) (s : JObj) (h : k ≠ "glyphs") :
    alook (rewrite_glyphs_step u s) k = alook s k := by
  unfold rewrite_glyphs_step
  by_cases hp : (alook s "glyphs").isSome
  · rw [if_pos hp, alook_setKey_ne _ _ _ _ h]
  · rw [if_neg hp]

theorem alook_sources_step_other (tmpl k : String) (style : JObj)
    (h : k ≠ "sources") :
    alook (rewrite_sources_step tmpl style) k = alook style k := by
  unfold rewrite_sources_step
  cases hsrc : alook style "sources" with
  | some v =>
    cases v with
    | obj srcs => rw [alook_setKey_ne _ _ _ _ h]
    | null => rfl
    | bool b => rfl
    | num n => rfl
    | str s => rfl
    | arr xs => rfl
  | none => rfl

theorem alook_sprite_step_self (u : String) (s : JObj) :
    alook (rewrite_sprite_step u s) "sprite" =
      if (alook s "sprite").isSome then some (.str u) else none := by
  unfold rewrite_sprite_step
  by_cases hp : (alook s "sprite").isSome
  · rw [if_pos hp, if_pos hp, alook_setKey_self]
  · rw [if_neg hp, if_neg hp]
    exact Option.not_isSome_iff_eq_none.mp (by simpa using hp)

theorem alook_glyphs_step_self (u : String) (s : JObj) :
    alook (rewrite_glyphs_step u s) "glyphs" =
      if (alook s "glyphs").isSome then some (.str u) else none := by
  unfold rewrite_glyphs_step
  by_cases hp : (alook s "glyphs").isSome
  · rw [if_pos hp, if_pos hp, alook_setKey_self]
  · rw [if_neg hp, if_neg hp]
    exact Option.not_isSome_iff_eq_none.mp (by simpa using hp)

theorem rewrite_source_spec (tmpl : String) (src : JObj) :
    ("url" ∉ keysOf (rewrite_source tmpl src))
    ∧ (isVector (eraseKey src "url") = true →
        alook (rewrite_source tmpl src) "tiles" = some (.arr [.str tmpl])
        ∧ alook (rewrite_source tmpl src) "scheme" =
            some ((alook src "scheme").getD (.str "xyz"))
        ∧ alook (rewrite_source tmpl src) "minzoom" =
            some ((alook src "minzoom").getD (.num 0))
        ∧ alook (rewrite_source tmpl src) "maxzoom" =
            some ((alook src "maxzoom").getD (.num 23)))
    ∧ (isVector (eraseKey src "url") = false →
        rewrite_source tmpl src = eraseKey src "url") := by
  unfold rewrite_source
  by_cases hv : isVector (eraseKey src "url") = true
  · rw [if_pos hv]
    refine ⟨?_, fun _ => ⟨?_, ?_, ?_, ?_⟩, fun hf => absurd hv (by simp [hf])⟩
    · apply keysOf_setdefaultKey_not_mem _ _ _ _ (by decide)
      apply keysOf_setdefaultKey_not_mem _ _ _ _ (by decide)
      apply keysOf_setdefaultKey_not_mem _ _ _ _ (by decide)
      apply keysOf_setKey_not_mem _ _ _ _ (by decide)
      exact keysOf_eraseKey_not_mem src "url"
    · rw [alook_setdefaultKey_ne _ _ _ _ (by decide),
        alook_setdefaultKey_ne _ _ _ _ (by decide),
        alook_setdefaultKey_ne _ _ _ _ (by decide),
        alook_setKey_self]
    · rw [alook_setdefaultKey_ne _ _ _ _ (by decide),
        alook_setdefaultKey_ne _ _ _ _ (by decide),
        alook_setdefaultKey_self,
        alook_setKey_ne _ _ _ _ (by decide),
        alook_eraseKey_ne _ _ _ (by decide)]
    · rw [alook_setdefaultKey_ne _ _ _ _ (by decide),
        alook_setdefaultKey_self,
        alook_setdefaultKey_ne _ _ _ _ (by decide),
        alook_setKey_ne _ _ _ _ (by decide),
        alook_eraseKey_ne _ _ _ (by decide)]
    · rw [alook_setdefaultKey_self,
        alook_setdefaultKey_ne _ _ _ _ (by decide),
        alook_setdefaultKey_ne _ _ _ _ (by decide),
        alook_setKey_ne _ _ _ _ (by decide),
        alook_eraseKey_ne _ _ _ (by decide)]
  · rw [Bool.not_eq_true] at hv
    rw [if_neg (by simp [hv])]
    exact ⟨keysOf_eraseKey_not_mem src "url",
      fun ht => absurd ht (by simp [hv]), fun _ => rfl⟩

/-- C7 counterexample: the rewrite only touches `sources` entries, `sprite`
and `glyphs`; a style document carrying the upstream session token in any
other field (here `metadata`) passes it through to the client verbatim, so
the claimed "contains neither the upstream session token nor the upstream
base URL anywhere" fails. -/
theorem c7_counterexample :
    strOccursO "SECRETTOKEN"
      (vt_style_rewrite "https://gw" "parks" "CK"
        [("metadata", Json.str "token=SECRETTOKEN"),
         ("sources", Json.obj [])]) = true := by
  have hout : vt_style_rewrite "https://gw" "parks" "CK"
      [("metadata", Json.str "token=SECRETTOKEN"), ("sources", Json.obj [])] =
      [("metadata", Json.str "token=SECRETTOKEN"), ("sources", Json.obj [])] := rfl
  rw [hout, strOccursO_cons]
  have h1 : strOccursJ "SECRETTOKEN" (("metadata",
      Json.str "token=SECRETTOKEN") : String × Json).2 = true := by
    rw [strOccursJ_str]
    decide
  rw [h1, Bool.true_or]

/-- C7 (amended): every source entry of the rewritten style has its `url`
removed; every vector-type source gets the single gateway z/y/x tile
template with `scheme`, `minzoom` 0 and `maxzoom` 23 defaulted when
absent; `sprite` and `glyphs` are rewritten to the gateway URLs carrying
the client key exactly when present; and a string `t` (such as the
upstream session token or base URL) cannot occur among the string values
of the result unless it already occurs outside the removed/replaced fields
(the residue `strip_style`) or inside the gateway URL material.  The
unconditional "never contains the token anywhere" of the claim fails for
fields the rewrite does not touch (see the counterexample). -/
theorem c7_style_rewrite_contract (gw aliasName keyq : String) (style : JObj) :
    (sourcesOf (vt_style_rewrite gw aliasName keyq style) =
      (sourcesOf style).map fun p =>
        (p.1, rewriteSourceJ (tileTemplate gw aliasName keyq) p.2))
    ∧ (∀ src : JObj,
        "url" ∉ keysOf (rewrite_source (tileTemplate gw aliasName keyq) src))
    ∧ (∀ src : JObj, isVector (eraseKey src "url") = true →
        alook (rewrite_source (tileTemplate gw aliasName keyq) src) "tiles" =
          some (.arr [.str (tileTemplate gw aliasName keyq)])
        ∧ alook (rewrite_source (tileTemplate gw aliasName keyq) src) "scheme" =
            some ((alook src "scheme").getD (.str "xyz"))
        ∧ alook (rewrite_source (tileTemplate gw aliasName keyq) src) "minzoom" =
            some ((alook src "minzoom").getD (.num 0))
        ∧ alook (rewrite_source (tileTemplate gw aliasName keyq) src) "maxzoom" =
            some ((alook src "maxzoom").getD (.num 23)))
    ∧ (∀ src : JObj, isVector (eraseKey src "url") = false →
        rewrite_source (tileTemplate gw aliasName keyq) src = eraseKey src "url")
    ∧ ((alook style "sprite").isSome →
        alook (vt_style_rewrite gw aliasName keyq style) "sprite" =
          some (.str (spriteURL gw aliasName keyq)))
    ∧ (alook style "sprite" = none →
        alook (vt_style_rewrite gw aliasName keyq style) "sprite" = none)
    ∧ ((alook style "glyphs").isSome →
        alook (vt_style_rewrite gw aliasName keyq style) "glyphs" =
          some (.str (glyphsURL gw aliasName keyq)))
    ∧ (alook style "glyphs" = none →
        alook (vt_style_rewrite gw aliasName keyq style) "glyphs" = none)
    ∧ (∀ t : String,
        strOccursO t (strip_style style) = false →
        substrB t (tileTemplate gw aliasName keyq) = false →
        substrB t "xyz" = false →
        substrB t (spriteURL gw aliasName keyq) = false →
        substrB t (glyphsURL gw aliasName keyq) = false →
        strOccursO t (vt_style_rewrite gw aliasName keyq style) = false) := by
  have hsprite : alook (vt_style_rewrite gw aliasName keyq style) "sprite" =
      if (alook style "sprite").isSome then
        some (.str (spriteURL gw aliasName keyq))
      else none := by
    unfold vt_style_rewrite
    rw [alook_glyphs_step_other _ _ _ (by decide), alook_sprite_step_self,
      alook_sources_step_other _ _ _ (by decide)]
  have hglyphs : alook (vt_style_rewrite gw aliasName keyq style) "glyphs" =
      if (alook style "glyphs").isSome then
        some (.str (glyphsURL gw aliasName keyq))
      else none := by
    unfold vt_style_rewrite
    rw [alook_glyphs_step_self, alook_sprite_step_other _ _ _ (by decide),
      alook_sources_step_other _ _ _ (by decide)]
  refine ⟨?_, ?_, ?_, ?_, ?_, ?_, ?_, ?_, ?_⟩
  · unfold vt_style_rewrite
    rw [sourcesOf_glyphs_step, sourcesOf_sprite_step, sourcesOf_sources_step]
  · intro src
    exact (rewrite_source_spec (tileTemplate gw aliasName keyq) src).1
  · intro src hv
    exact (rewrite_source_spec (tileTemplate gw aliasName keyq) src).2.1 hv
  · intro src hv
    exact (rewrite_source_spec (tileTemplate gw aliasName keyq) src).2.2 hv
  · intro hp
    rw [hsprite, if_pos hp]
  · intro hp
    rw [hsprite, if_neg (by simp [hp])]
  · intro hp
    rw [hglyphs, if_pos hp]
  · intro hp
    rw [hglyphs, if_neg (by simp [hp])]
  · intro t h0 h1 h2 h3 h4
    cases hocc : strOccursO t (vt_style_rewrite gw aliasName keyq style) with
    | false => rfl
    | true =>
      rcases strOccursO_vt_style_le gw aliasName keyq t style hocc
        with h | h | h | h | h <;> simp_all

/-- C7 witness: the amended contract at a concrete style document, in
particular the no-leak conclusion for a concrete upstream token. -/
theorem c7_witness :
    alook (vt_style_rewrite "https://gw" "parks" "CK"
        [("sources", Json.obj [("esri", Json.obj
          [("type", Json.str "vector"),
           ("url", Json.str "https://upstream/VectorTileServer?token=UPTOKEN")])]),
         ("sprite", Json.str "https://upstream/sprite?token=UPTOKEN")]) "sprite" =
      some (.str (spriteURL "https://gw" "parks" "CK"))
    ∧ strOccursO "UPTOKEN"
        (vt_style_rewrite "https://gw" "parks" "CK"
          [("sources", Json.obj [("esri", Json.obj
            [("type", Json.str "vector"),
             ("url", Json.str "https://upstream/VectorTileServer?token=UPTOKEN")])]),
           ("sprite", Json.str "https://upstream/sprite?token=UPTOKEN")]) = false := by
  constructor
  · exact (c7_style_rewrite_contract "https://gw" "parks" "CK"
      [("sources", Json.obj [("esri", Json.obj
        [("type", Json.str "vector"),
         ("url", Json.str "https://upstream/VectorTileServer?token=UPTOKEN")])]),
       ("sprite", Json.str "https://upstream/sprite?token=UPTOKEN")]).2.2.2.2.1
      (by decide)
  · apply (c7_style_rewrite_contract "https://gw" "parks" "CK"
      [("sources", Json.obj [("esri", Json.obj
        [("type", Json.str "vector"),
         ("url", Json.str "https://upstream/VectorTileServer?token=UPTOKEN")])]),
       ("sprite", Json.str "https://upstream/sprite?token=UPTOKEN")]).2.2.2.2.2.2.2.2
      "UPTOKEN"
    · rw [show strip_style [("sources", Json.obj [("esri", Json.obj
          [("type", Json.str "vector"),
           ("url", Json.str "https://upstream/VectorTileServer?token=UPTOKEN")])]),
         ("sprite", Json.str "https://upstream/sprite?token=UPTOKEN")] =
         [("sources", Json.obj [("esri", Json.obj [("type", Json.str "vector")])])]
         from rfl]
      rw [strOccursO_cons, strOccursO_nil, strOccursJ_obj, strOccursO_cons,
        strOccursO_nil, strOccursJ_obj, strOccursO_cons, strOccursO_nil,
        strOccursJ_str]
      decide
    · decide
    · decide
    · decide
    · decide


end AgolProxy
